import Mathlib

/-!
Verification of the uhcut timeline editor core.

This file shallowly embeds the three engine copies of the repository that the
checked claims refer to:

* `StateTS`  — the Angular `StateService` in `src/ui/src/app/services/state.ts`
  (timeline operations, history with dedup, 50-entry cap);
* `Part3`    — the engine in `src/unnamed/part_003` (history with dedup, the
  `removeSilenceTool` silence-removal ripple edit);
* `ScriptJS` — the legacy engine in `src/script.js` (history without dedup,
  the two-step `removeSilence`, the thumbnail capture queue).

Times, durations, offsets and zoom are embedded as exact rationals; JS array
`push`/`pop`/`shift` become list append / last / tail.  `JSON.stringify`-based
snapshot comparison is embedded as structural equality of a `Snapshot`
structure (the serialization in the source is deterministic over the fields it
captures, so string equality coincides with structural equality).  DOM handles,
file objects and rendering side effects are outside the embedding; fresh
`Date.now()`-based ids appear as explicit `newId` parameters.
-/

/-- Kind of a media item / clip (`'video' | 'audio'` in the source). -/
inductive MediaType where
  | video
  | audio
deriving DecidableEq, Repr

namespace StateTS

/-- `MediaItem` from `state.ts`, restricted to the fields the modelled
operations read (`id`, `type`, `duration`); `file`, `url`, `name` and the
dimensions are DOM-side data not touched by the timeline operations. -/
structure MediaItem where
  id : String
  type : MediaType
  duration : ℚ
deriving DecidableEq, Repr

/-- `Clip` from `state.ts`. -/
structure Clip where
  id : String
  mediaId : String
  startTime : ℚ
  duration : ℚ
  offset : ℚ
  type : MediaType
  muted : Bool
  volume : ℚ
deriving DecidableEq, Repr

/-- The fields captured by `JSON.stringify` in `saveState`/`undo`/`redo`:
`{videoTrack, audioTracks, selectedClipId, playbackTime, zoom}`. -/
structure Snapshot where
  videoTrack : List Clip
  audioTracks : List (List Clip)
  selectedClipId : Option String
  playbackTime : ℚ
  zoom : ℚ
deriving DecidableEq, Repr

/-- The mutable signals of `StateService` plus its two private history stacks.
JS array index 0 is the list head, so `push` is append-at-end, `pop` takes the
last element and `shift` drops the head (the oldest entry). -/
structure StateService where
  media : List MediaItem
  videoTrack : List Clip
  audioTracks : List (List Clip)
  playbackTime : ℚ
  isPlaying : Bool
  zoom : ℚ
  selectedClipId : Option String
  historyStack : List Snapshot
  redoStack : List Snapshot
deriving DecidableEq, Repr

/-- Initial signal values of `StateService` (`audioTracks` starts as two empty
lanes, `zoom` as 20). -/
def initState : StateService :=
  { media := []
    videoTrack := []
    audioTracks := [[], []]
    playbackTime := 0
    isPlaying := false
    zoom := 20
    selectedClipId := none
    historyStack := []
    redoStack := [] }

/-- The snapshot `saveState`/`undo`/`redo` serialize from the current state. -/
def snapshotOf (s : StateService) : Snapshot :=
  { videoTrack := s.videoTrack
    audioTracks := s.audioTracks
    selectedClipId := s.selectedClipId
    playbackTime := s.playbackTime
    zoom := s.zoom }

/-- `StateService.saveState`: serialize, discard if equal to the top of the
undo stack, otherwise push, clear the redo stack, and evict the oldest entry
when the stack exceeds 50. -/
def saveState (s : StateService) : StateService :=
  let snap := snapshotOf s
  if s.historyStack.getLast? = some snap then s
  else
    let pushed := s.historyStack ++ [snap]
    let capped := if pushed.length > 50 then pushed.tail else pushed
    { s with historyStack := capped, redoStack := [] }

/-- `StateService.restoreState`: set the five snapshot-backed signals. -/
def restoreState (s : StateService) (snap : Snapshot) : StateService :=
  { s with
    videoTrack := snap.videoTrack
    audioTracks := snap.audioTracks
    selectedClipId := snap.selectedClipId
    playbackTime := snap.playbackTime
    zoom := snap.zoom }

/-- `StateService.undo`: push the current snapshot onto the redo stack, pop the
undo stack and restore what was popped. -/
def undo (s : StateService) : StateService :=
  match s.historyStack.getLast? with
  | none => s
  | some snap =>
      restoreState
        { s with
          redoStack := s.redoStack ++ [snapshotOf s]
          historyStack := s.historyStack.dropLast }
        snap

/-- `StateService.redo`: push the current snapshot onto the undo stack, pop the
redo stack and restore what was popped.  Note: no dedup, no cap, and the rest
of the redo stack is kept. -/
def redo (s : StateService) : StateService :=
  match s.redoStack.getLast? with
  | none => s
  | some snap =>
      restoreState
        { s with
          historyStack := s.historyStack ++ [snapshotOf s]
          redoStack := s.redoStack.dropLast }
        snap

/-- `Partial<Clip>` as passed to `updateClip`: one optional replacement per
field. -/
structure ClipPatch where
  id : Option String := none
  mediaId : Option String := none
  startTime : Option ℚ := none
  duration : Option ℚ := none
  offset : Option ℚ := none
  type : Option MediaType := none
  muted : Option Bool := none
  volume : Option ℚ := none
deriving DecidableEq, Repr

/-- Object spread `{ ...clip, ...updates }`. -/
def applyPatch (c : Clip) (u : ClipPatch) : Clip :=
  { id := u.id.getD c.id
    mediaId := u.mediaId.getD c.mediaId
    startTime := u.startTime.getD c.startTime
    duration := u.duration.getD c.duration
    offset := u.offset.getD c.offset
    type := u.type.getD c.type
    muted := u.muted.getD c.muted
    volume := u.volume.getD c.volume }

/-- `findIndex` + replace-at-index: rewrite the first element satisfying `p`
with `f`, leave the list unchanged when there is none. -/
def patchFirst (p : Clip → Bool) (f : Clip → Clip) : List Clip → List Clip
  | [] => []
  | c :: cs => if p c then f c :: cs else c :: patchFirst p f cs

/-- `StateService.updateClip`: patch the clip in the video track if present
(and return), otherwise patch the first match inside each audio lane. -/
def updateClip (s : StateService) (clipId : String) (u : ClipPatch) : StateService :=
  if s.videoTrack.any (fun c => c.id = clipId) then
    { s with videoTrack := patchFirst (fun c => c.id = clipId) (fun c => applyPatch c u) s.videoTrack }
  else
    { s with
      audioTracks :=
        s.audioTracks.map (patchFirst (fun c => c.id = clipId) (fun c => applyPatch c u)) }

/-- `StateService.deleteClip`: save history, filter the id out of every track,
clear the selection if it pointed at that id. -/
def deleteClip (s : StateService) (clipId : String) : StateService :=
  let s := saveState s
  { s with
    videoTrack := s.videoTrack.filter (fun c => c.id ≠ clipId)
    audioTracks := s.audioTracks.map (fun t => t.filter (fun c => c.id ≠ clipId))
    selectedClipId := if s.selectedClipId = some clipId then none else s.selectedClipId }

/-- `StateService.findClip`: video track first, then each audio lane. -/
def findClip (s : StateService) (id : String) : Option Clip :=
  match s.videoTrack.find? (fun c => c.id = id) with
  | some v => some v
  | none => s.audioTracks.findSome? (fun t => t.find? (fun c => c.id = id))

/-- `StateService.checkCollision`: some clip with a different id whose
half-open interval `[startTime, startTime+duration)` overlaps the new clip's. -/
def checkCollision (trackClips : List Clip) (newClip : Clip) : Bool :=
  trackClips.any fun c =>
    c.id ≠ newClip.id ∧
      ¬(newClip.startTime ≥ c.startTime + c.duration ∨
        newClip.startTime + newClip.duration ≤ c.startTime)

/-- The clip literal built by `addClipToTimeline` (startTime clamped to ≥ 0,
offset 0, unmuted, volume 1, fresh id). -/
def addedClip (mediaItem : MediaItem) (startTime : ℚ) (newId : String) : Clip :=
  { id := newId
    mediaId := mediaItem.id
    startTime := max 0 startTime
    duration := mediaItem.duration
    offset := 0
    type := mediaItem.type
    muted := false
    volume := 1 }

/-- `StateService.addClipToTimeline`: save history; video clips are appended
to the video track; audio clips go to lane 0 unless they collide with lane 0
and lane 1 exists, in which case lane 1 is used (even if lane 1 also
collides). -/
def addClipToTimeline (s : StateService) (mediaItem : MediaItem) (startTime : ℚ)
    (newId : String) : StateService :=
  let s := saveState s
  let clip := addedClip mediaItem startTime newId
  match mediaItem.type with
  | MediaType.video => { s with videoTrack := s.videoTrack ++ [clip] }
  | MediaType.audio =>
      let lane0 := s.audioTracks.getD 0 []
      let target : ℕ :=
        if checkCollision lane0 clip ∧ 1 < s.audioTracks.length then 1 else 0
      { s with
        audioTracks := s.audioTracks.set target (s.audioTracks.getD target [] ++ [clip]) }

/-- End of the clip ending last in a lane (`reduce` over
`startTime + duration`), 0 for an empty lane. -/
def laneEnd (clips : List Clip) : ℚ :=
  match clips.foldl
      (fun acc c =>
        match acc with
        | none => some c
        | some a => if a.startTime + a.duration > c.startTime + c.duration then some a else some c)
      none with
  | none => 0
  | some c => c.startTime + c.duration

/-- `StateService.addToTimelineSmart`: save history, then append after the
last clip of the target lane (video track for video; the loop in the source
always takes lane 0 for audio). -/
def addToTimelineSmart (s : StateService) (item : MediaItem) (newId : String) : StateService :=
  let s := saveState s
  let base : Clip :=
    { id := newId, mediaId := item.id, startTime := 0, duration := item.duration
      offset := 0, type := item.type, muted := false, volume := 1 }
  match item.type with
  | MediaType.video =>
      let clip := { base with startTime := laneEnd s.videoTrack }
      { s with videoTrack := s.videoTrack ++ [clip] }
  | MediaType.audio =>
      let lane0 := s.audioTracks.getD 0 []
      let clip := { base with startTime := laneEnd lane0 }
      { s with audioTracks := s.audioTracks.set 0 (lane0 ++ [clip]) }

/-- `StateService.splitClip`: split the selected clip at the playhead when it
falls strictly inside the clip with 0.05 s of margin at both ends; the
original keeps its id and is truncated, the second half is appended to the
clip's track with a fresh id. -/
def splitClip (s : StateService) (newId : String) : StateService :=
  match s.selectedClipId with
  | none => s
  | some clipId =>
      match findClip s clipId with
      | none => s
      | some clip =>
          let currentTime := s.playbackTime
          let relTime := currentTime - clip.startTime
          if relTime > 1 / 20 ∧ relTime < clip.duration - 1 / 20 then
            let s := saveState s
            let newClip : Clip :=
              { clip with
                id := newId
                startTime := currentTime
                duration := clip.duration - relTime
                offset := clip.offset + relTime }
            let s := updateClip s clip.id { duration := some relTime }
            match clip.type with
            | MediaType.video => { s with videoTrack := s.videoTrack ++ [newClip] }
            | MediaType.audio =>
                { s with
                  audioTracks :=
                    s.audioTracks.map fun t =>
                      if t.any (fun c => c.id = clip.id) then t ++ [newClip] else t }
          else s

/-- The truncated original clip A produced by `splitClip` at playhead `t`:
same id, `duration = t - startTime` (the `updateClip` call in the source). -/
def splitFirst (clip : Clip) (t : ℚ) : Clip :=
  { clip with duration := t - clip.startTime }

/-- The second clip B produced by `splitClip` at playhead `t`: fresh id,
`startTime = t`, `duration = clip.duration - (t - startTime)`,
`offset = clip.offset + (t - startTime)`, all other attributes inherited
(the `newClip` literal in the source). -/
def splitSecond (clip : Clip) (t : ℚ) (newId : String) : Clip :=
  { clip with
    id := newId
    startTime := t
    duration := clip.duration - (t - clip.startTime)
    offset := clip.offset + (t - clip.startTime) }

/-- The operations a user session can issue against `StateService`: the
history operations, every mutating timeline command, and the direct signal
writes (selection, seeking, zoom, play state) performed by the UI
components. -/
inductive Op where
  | save : Op
  | undo : Op
  | redo : Op
  | addSmart : MediaItem → String → Op
  | addClip : MediaItem → ℚ → String → Op
  | update : String → ClipPatch → Op
  | delete : String → Op
  | split : String → Op
  | select : Option String → Op
  | seek : ℚ → Op
  | setZoom : ℚ → Op
  | setPlaying : Bool → Op

/-- Dispatch one operation. -/
def applyOp (op : Op) (s : StateService) : StateService :=
  match op with
  | Op.save => saveState s
  | Op.undo => undo s
  | Op.redo => redo s
  | Op.addSmart item newId => addToTimelineSmart s item newId
  | Op.addClip item t newId => addClipToTimeline s item t newId
  | Op.update cid u => updateClip s cid u
  | Op.delete cid => deleteClip s cid
  | Op.split newId => splitClip s newId
  | Op.select id => { s with selectedClipId := id }
  | Op.seek t => { s with playbackTime := t }
  | Op.setZoom z => { s with zoom := z }
  | Op.setPlaying b => { s with isPlaying := b }

/-- Run a list of operations from a starting state. -/
def run (ops : List Op) (s : StateService) : StateService :=
  ops.foldl (fun s op => applyOp op s) s

/-- The history invariant: the undo and redo stacks together hold at most 50
snapshots (it holds initially and is preserved by every operation, and it
bounds the undo stack by 50). -/
def HistInv (s : StateService) : Prop :=
  s.historyStack.length + s.redoStack.length ≤ 50

end StateTS

namespace Part3

/-- Media entry of the `part_003` engine as read by `removeSilenceTool`
(`media.id` for the waveform-cache key, `media.url` for the fetch). -/
structure Media where
  id : String
  url : String
deriving DecidableEq, Repr

/-- Clip of the `part_003` engine:
`{ id, mediaId, startTime, duration, offset, type, muted }` (no volume). -/
structure Clip where
  id : String
  mediaId : String
  startTime : ℚ
  duration : ℚ
  offset : ℚ
  type : MediaType
  muted : Bool
deriving DecidableEq, Repr

/-- `state.tracks`: one video track, a list of audio lanes
(initially two). -/
structure Tracks where
  video : List Clip
  audio : List (List Clip)
deriving DecidableEq, Repr

/-- The fields `saveState`/`undo`/`redo` serialize:
`{tracks, selectedClipId, playbackTime, zoom}`. -/
structure Snapshot where
  tracks : Tracks
  selectedClipId : Option String
  playbackTime : ℚ
  zoom : ℚ
deriving DecidableEq, Repr

/-- Global `state` of `part_003` plus the two history stacks. -/
structure State where
  media : List Media
  tracks : Tracks
  playbackTime : ℚ
  isPlaying : Bool
  zoom : ℚ
  selectedClipId : Option String
  historyStack : List Snapshot
  redoStack : List Snapshot
deriving DecidableEq, Repr

/-- The serialized snapshot of the current state. -/
def snapshotOf (s : State) : Snapshot :=
  { tracks := s.tracks
    selectedClipId := s.selectedClipId
    playbackTime := s.playbackTime
    zoom := s.zoom }

/-- `part_003`'s `saveState`: dedup against the top of the undo stack, push,
clear the redo stack, cap at 50 by shifting the oldest entry. -/
def saveState (s : State) : State :=
  let snap := snapshotOf s
  if s.historyStack.getLast? = some snap then s
  else
    let pushed := s.historyStack ++ [snap]
    let capped := if pushed.length > 50 then pushed.tail else pushed
    { s with historyStack := capped, redoStack := [] }

/-- `part_003`'s `restoreState` (parsed snapshot applied to the state). -/
def restoreState (s : State) (snap : Snapshot) : State :=
  { s with
    tracks := snap.tracks
    selectedClipId := snap.selectedClipId
    playbackTime := snap.playbackTime
    zoom := snap.zoom }

/-- `part_003`'s `undo`. -/
def undo (s : State) : State :=
  match s.historyStack.getLast? with
  | none => s
  | some snap =>
      restoreState
        { s with
          redoStack := s.redoStack ++ [snapshotOf s]
          historyStack := s.historyStack.dropLast }
        snap

/-- `part_003`'s `redo`. -/
def redo (s : State) : State :=
  match s.redoStack.getLast? with
  | none => s
  | some snap =>
      restoreState
        { s with
          historyStack := s.historyStack ++ [snapshotOf s]
          redoStack := s.redoStack.dropLast }
        snap

/-- `part_003`'s `findClip`: video track first, then each audio lane. -/
def findClip (s : State) (id : String) : Option Clip :=
  match s.tracks.video.find? (fun c => c.id = id) with
  | some v => some v
  | none => s.tracks.audio.findSome? (fun t => t.find? (fun c => c.id = id))

/-- A `{start, end, type}` range of sample indices produced by the silence
scan; `end` is a Lean keyword, so the field is `stop`; `type` is the Bool
`speech` (`true` for `'speech'`, `false` for `'silence'`). -/
structure SampleRange where
  start : ℤ
  stop : ℤ
  speech : Bool
deriving DecidableEq, Repr

/-- The max-amplitude scan of `removeSilenceTool`: step 100 over
`[i, endS)`, tracking the running peak `acc`. -/
def maxAbsLoop (data : ℤ → ℚ) (endS : ℤ) (i : ℤ) (acc : ℚ) : ℚ :=
  if i < endS then maxAbsLoop data endS (i + 100) (max acc |data i|) else acc
termination_by (endS - i).toNat
decreasing_by simp_wf; omega

/-- The `futureSpeech` lookahead: some `j ≥ 1` with `j < 0.15·sampleRate/100`
and `i + j·100 < endS` whose sample exceeds the threshold. -/
def futureSpeech (data : ℤ → ℚ) (threshold : ℚ) (sampleRate : ℕ) (endS i : ℤ) : Bool :=
  (List.range (Int.toNat ⌈(3 / 20 : ℚ) * sampleRate / 100⌉)).any fun j0 =>
    let j : ℤ := j0 + 1
    decide ((j : ℚ) < (3 / 20 : ℚ) * sampleRate / 100) &&
      decide (i + j * 100 < endS) && decide (|data (i + j * 100)| > threshold)

/-- The classification loop of `removeSilenceTool`: step 100 over
`[i, endS)`, pushing a closed range whenever the speech/silence state flips
(with the `futureSpeech` lookahead debouncing short silences), and closing the
final range at `endS` after the loop. -/
def scanLoop (data : ℤ → ℚ) (threshold : ℚ) (sampleRate : ℕ) (endS : ℤ)
    (i rangeStart : ℤ) (isSpeech : Bool) (acc : List SampleRange) : List SampleRange :=
  if i < endS then
    if |data i| > threshold ∧ isSpeech = false then
      scanLoop data threshold sampleRate endS (i + 100) i true
        (acc ++ [⟨rangeStart, i, false⟩])
    else if |data i| ≤ threshold ∧ isSpeech = true then
      if futureSpeech data threshold sampleRate endS i then
        scanLoop data threshold sampleRate endS (i + 100) rangeStart isSpeech acc
      else
        scanLoop data threshold sampleRate endS (i + 100) i false
          (acc ++ [⟨rangeStart, i, true⟩])
    else
      scanLoop data threshold sampleRate endS (i + 100) rangeStart isSpeech acc
  else acc ++ [⟨rangeStart, endS, isSpeech⟩]
termination_by (endS - i).toNat
decreasing_by all_goals simp_wf; omega

/-- The retained speech segments: speech ranges longer than
`minSpeechDur = 0.15` seconds. -/
def speechSegments (ranges : List SampleRange) (sampleRate : ℕ) : List SampleRange :=
  ranges.filter fun r =>
    r.speech && decide (((r.stop - r.start : ℤ) : ℚ) / sampleRate > 3 / 20)

/-- `findIndex` + `splice(idx, 1)`: drop the first element satisfying `p`. -/
def removeFirst (p : Clip → Bool) : List Clip → List Clip
  | [] => []
  | c :: cs => if p c then cs else c :: removeFirst p cs

/-- The `forEach` over `speechSegments` in `removeSilenceTool`: one clip per
segment, placed back-to-back from `insertTime`, with
`offset = seg.start / sampleRate` and `duration = (seg.end - seg.start) /
sampleRate`, inheriting mediaId/type/muted; `newIds k` stands for the `k`-th
`'auto_' + Date.now() + Math.random()` id. -/
def newClipsFrom (clip : Clip) (sampleRate : ℕ) (newIds : ℕ → String) :
    ℕ → ℚ → List SampleRange → List Clip
  | _, _, [] => []
  | k, insertTime, seg :: rest =>
      let segDuration := ((seg.stop - seg.start : ℤ) : ℚ) / sampleRate
      let segOffset := ((seg.start : ℤ) : ℚ) / sampleRate
      { id := newIds k
        mediaId := clip.mediaId
        startTime := insertTime
        duration := segDuration
        offset := segOffset
        type := clip.type
        muted := clip.muted } :: newClipsFrom clip sampleRate newIds (k + 1) (insertTime + segDuration) rest

/-- `Math.floor(clip.offset * buffer.sampleRate)`. -/
def clipStartSample (clip : Clip) (sampleRate : ℕ) : ℤ :=
  ⌊clip.offset * sampleRate⌋

/-- `Math.floor((clip.offset + clip.duration) * buffer.sampleRate)`. -/
def clipEndSample (clip : Clip) (sampleRate : ℕ) : ℤ :=
  ⌊(clip.offset + clip.duration) * sampleRate⌋

/-- The dynamic threshold of `removeSilenceTool`:
`Math.max(0.01, maxVal * 0.15)` over the clip's sample window. -/
def clipThreshold (data : ℤ → ℚ) (clip : Clip) (sampleRate : ℕ) : ℚ :=
  max (1 / 100)
    (maxAbsLoop data (clipEndSample clip sampleRate) (clipStartSample clip sampleRate) 0 *
      (3 / 20))

/-- The retained speech segments `removeSilenceTool` computes for a clip. -/
def clipSpeechSegments (data : ℤ → ℚ) (clip : Clip) (sampleRate : ℕ) : List SampleRange :=
  speechSegments
    (scanLoop data (clipThreshold data clip sampleRate) sampleRate
      (clipEndSample clip sampleRate) (clipStartSample clip sampleRate)
      (clipStartSample clip sampleRate) false [])
    sampleRate

/-- `part_003`'s `removeSilenceTool` after the media decode: `data` is channel
0 of the decoded buffer, `sampleRate` its rate.  Detects speech over the
clip's sample window, and when at least one retained segment exists, saves
history once, removes the source clip and appends the per-segment clips
(video clips to the video track, audio clips to lane 0).  When no segment is
retained the state is untouched (the source only shows an alert). -/
def removeSilenceTool (s : State) (data : ℤ → ℚ) (sampleRate : ℕ)
    (newIds : ℕ → String) : State :=
  match s.selectedClipId with
  | none => s
  | some cid =>
  match findClip s cid with
  | none => s
  | some clip =>
  match s.media.find? (fun m => m.id = clip.mediaId) with
  | none => s
  | some _media =>
      let segs := clipSpeechSegments data clip sampleRate
      if segs.isEmpty then s
      else
        let s := saveState s
        let tracksV := s.tracks.video.filter (fun c => c.id ≠ clip.id)
        let tracksA := s.tracks.audio.map (removeFirst (fun c => c.id = clip.id))
        let newClips := newClipsFrom clip sampleRate newIds 0 clip.startTime segs
        match clip.type with
        | MediaType.video =>
            { s with tracks := { video := tracksV ++ newClips, audio := tracksA } }
        | MediaType.audio =>
            { s with
              tracks :=
                { video := tracksV
                  audio := tracksA.set 0 (tracksA.getD 0 [] ++ newClips) } }

/-- `rs` tiles the sample interval from `a` to `b` contiguously: each range
starts where the previous one ended, has a nonnegative length, and the last
one ends at `b`. -/
def rangesChain : ℤ → List SampleRange → ℤ → Prop
  | a, [], b => a = b
  | a, r :: rs, b => r.start = a ∧ a ≤ r.stop ∧ rangesChain r.stop rs b

/-- Total sample length of a list of ranges. -/
def rangesLen (rs : List SampleRange) : ℤ :=
  (rs.map (fun r => r.stop - r.start)).sum

/-- The clips lie back-to-back on the timeline starting at `t` (no gaps). -/
def contiguousFrom : ℚ → List Clip → Prop
  | _, [] => True
  | t, c :: cs => c.startTime = t ∧ contiguousFrom (t + c.duration) cs

end Part3

namespace ScriptJS

/-- Media entry of the legacy `script.js` engine as read by `removeSilence`. -/
structure Media where
  id : String
  url : String
deriving DecidableEq, Repr

/-- Clip of `script.js`; `isSilence` is the tag set by `removeSilence` on the
intermediate split clips (absent on ordinary clips, i.e. `false`). -/
structure Clip where
  id : String
  mediaId : String
  startTime : ℚ
  duration : ℚ
  offset : ℚ
  type : MediaType
  muted : Bool
  isSilence : Bool := false
deriving DecidableEq, Repr

/-- `state.tracks` of `script.js`: flat `video` and `audio` clip arrays. -/
structure Tracks where
  video : List Clip
  audio : List Clip
deriving DecidableEq, Repr

/-- The snapshot deep-copied by `saveState`/`undo`/`redo` in `script.js`. -/
structure Snapshot where
  tracks : Tracks
  selectedClipId : Option String
  playbackTime : ℚ
  zoom : ℚ
deriving DecidableEq, Repr

/-- Global `state` of `script.js` plus the two history stacks. -/
structure State where
  media : List Media
  tracks : Tracks
  playbackTime : ℚ
  zoom : ℚ
  selectedClipId : Option String
  historyStack : List Snapshot
  redoStack : List Snapshot
deriving DecidableEq, Repr

/-- The deep-copied snapshot of the current state. -/
def snapshotOf (s : State) : Snapshot :=
  { tracks := s.tracks
    selectedClipId := s.selectedClipId
    playbackTime := s.playbackTime
    zoom := s.zoom }

/-- `script.js`'s `saveState`: push unconditionally (no dedup), clear the redo
stack, cap at 50 by shifting the oldest entry. -/
def saveState (s : State) : State :=
  let pushed := s.historyStack ++ [snapshotOf s]
  { s with
    historyStack := if pushed.length > 50 then pushed.tail else pushed
    redoStack := [] }

/-- `script.js`'s `restoreState`. -/
def restoreState (s : State) (snap : Snapshot) : State :=
  { s with
    tracks := snap.tracks
    selectedClipId := snap.selectedClipId
    playbackTime := snap.playbackTime
    zoom := snap.zoom }

/-- `script.js`'s `undo`. -/
def undo (s : State) : State :=
  match s.historyStack.getLast? with
  | none => s
  | some snap =>
      restoreState
        { s with
          redoStack := s.redoStack ++ [snapshotOf s]
          historyStack := s.historyStack.dropLast }
        snap

/-- A detected speech chunk `{start, end}` in media seconds (`end` is a Lean
keyword, so the field is `stop`). -/
structure Chunk where
  start : ℚ
  stop : ℚ
deriving DecidableEq, Repr

/-- A `{start, end, type}` segment of `allSegments`; `silence` is `true` for
`type: 'silence'`. -/
structure Seg where
  start : ℚ
  stop : ℚ
  silence : Bool
deriving DecidableEq, Repr

/-- The `visibleChunks.forEach` of `removeSilence`: walk the chunks with a
cursor from `clip.offset`, emitting the silence gap before each chunk and the
chunk clipped to the clip window; returns the segments and the final cursor. -/
def allSegmentsLoop (endOfClip : ℚ) : ℚ → List Chunk → List Seg × ℚ
  | cursor, [] => ([], cursor)
  | cursor, ch :: rest =>
      let gapStart := cursor
      let gapEnd := max cursor ch.start
      let gaps : List Seg :=
        if gapEnd > gapStart then [{ start := gapStart, stop := gapEnd, silence := true }] else []
      let speechStart := max cursor ch.start
      let speechEnd := min endOfClip ch.stop
      let sps : List Seg :=
        if speechEnd > speechStart then
          [{ start := speechStart, stop := speechEnd, silence := false }]
        else []
      let (restSegs, cfin) := allSegmentsLoop endOfClip speechEnd rest
      (gaps ++ sps ++ restSegs, cfin)

/-- `allSegments` including the tail gap after the last chunk. -/
def allSegments (clip : Clip) (visibleChunks : List Chunk) : List Seg :=
  let endOfClip := clip.offset + clip.duration
  let (segs, cursor) := allSegmentsLoop endOfClip clip.offset visibleChunks
  segs ++ (if cursor < endOfClip then [{ start := cursor, stop := endOfClip, silence := true }] else [])

/-- The `allSegments.forEach` of `removeSilence`: one tagged clip per segment
longer than 0.05 s, placed back-to-back from `pos`; `newIds k` stands for the
`k`-th `'split_' + Date.now() + Math.random()` id. -/
def splitClips (clip : Clip) (newIds : ℕ → String) : ℕ → ℚ → List Seg → List Clip
  | _, _, [] => []
  | k, pos, seg :: rest =>
      let duration := seg.stop - seg.start
      if duration > 1 / 20 then
        { id := newIds k
          mediaId := clip.mediaId
          startTime := pos
          duration := duration
          offset := seg.start
          type := clip.type
          muted := clip.muted
          isSilence := seg.silence } :: splitClips clip newIds (k + 1) (pos + duration) rest
      else splitClips clip newIds k pos rest

/-- The final ripple of `removeSilence`: reassign `startTime` back-to-back
from `pos` over the kept clips. -/
def reposition (pos : ℚ) : List Clip → List Clip
  | [] => []
  | c :: cs => { c with startTime := pos } :: reposition (pos + c.duration) cs

/-- Read/write the track named by `trackType`. -/
def getTrack (t : Tracks) (isVideo : Bool) : List Clip :=
  if isVideo then t.video else t.audio

/-- Replace the track named by `trackType`. -/
def setTrack (t : Tracks) (isVideo : Bool) (clips : List Clip) : Tracks :=
  if isVideo then { t with video := clips } else { t with audio := clips }

/-- `script.js`'s `removeSilence` after the audio decode: `chunks` is the
detected speech-chunk list.  Two-step history ("TWO STEP UNDO LOGIC" in the
source): save, replace the clip by speech *and* silence split clips, save
again, then delete the silence clips and ripple the kept ones together. -/
def removeSilence (s : State) (chunks : List Chunk) (newIds : ℕ → String) : State :=
  match s.selectedClipId with
  | none => s
  | some cid =>
      let isVideo := (s.tracks.video.find? (fun c => c.id = cid)).isSome
      match (getTrack s.tracks isVideo).find? (fun c => c.id = cid) with
      | none => s
      | some clip =>
      match s.media.find? (fun m => m.id = clip.mediaId) with
      | none => s
      | some _media =>
          if chunks.isEmpty then s
          else
            let visibleChunks := chunks.filter fun ch =>
              ch.stop > clip.offset ∧ ch.start < clip.offset + clip.duration
            if visibleChunks.isEmpty then s
            else
              let segs := allSegments clip visibleChunks
              -- Step 1: snapshot, then replace the clip by its split parts.
              let s1 := saveState s
              let newClips := splitClips clip newIds 0 clip.startTime segs
              let track1 :=
                (getTrack s1.tracks isVideo).filter (fun c => c.id ≠ clip.id) ++ newClips
              let s1 := { s1 with tracks := setTrack s1.tracks isVideo track1 }
              -- Step 2: snapshot again, then delete silence clips and ripple.
              let s2 := saveState s1
              let kept := (getTrack s2.tracks isVideo).filter (fun c => ¬c.isSilence)
              let keptOld := kept.take (kept.length - (newClips.filter (fun c => ¬c.isSilence)).length)
              let keptNew := reposition clip.startTime (newClips.filter (fun c => ¬c.isSilence))
              { s2 with tracks := setTrack s2.tracks isVideo (keptOld ++ keptNew) }

end ScriptJS

namespace Thumbs

/-- A queued thumbnail task `{url, time, cacheKey}` (the `resolve` callback
only feeds the DOM). -/
structure Task where
  url : String
  time : ℚ
  cacheKey : String
deriving DecidableEq, Repr

/-- The thumbnail pipeline state of `script.js`: the set of populated
`thumbnailCache` keys, the FIFO `thumbQueue`, the in-flight task (the
`isProcessingThumbs` busy flag holds exactly when it is `some`),
`state.isPlaying`, and a counter of capture invocations (seeks issued on the
shared `sharedThumbVideo` element). -/
structure ThumbState where
  cache : List String
  queue : List Task
  current : Option Task
  playing : Bool
  captures : ℕ
deriving DecidableEq, Repr

/-- The cache key of `drawVideoThumbnails`:
``` `${media.id}_${Math.floor(thumbTime * 10)}` ``` — media id plus the time
quantized to 0.1 s. -/
def cacheKey (mediaId : String) (time : ℚ) : String :=
  mediaId ++ "_" ++ toString (⌊time * 10⌋ : ℤ)

/-- `processThumbQueue`: do nothing while playing, while a capture is in
flight, or when the queue is empty; otherwise shift the next task, prune the
backlog (keep the newest 20 once over 50) and start capturing it (one seek on
the shared element). -/
def processThumbQueue (s : ThumbState) : ThumbState :=
  if s.playing then s
  else if s.current.isSome then s
  else
    match s.queue with
    | [] => s
    | task :: rest =>
        let rest := if rest.length > 50 then rest.drop (rest.length - 20) else rest
        { s with queue := rest, current := some task, captures := s.captures + 1 }

/-- `captureThumbnail`: enqueue the task and kick the queue. -/
def captureThumbnail (s : ThumbState) (url : String) (time : ℚ) (key : String) : ThumbState :=
  processThumbQueue { s with queue := s.queue ++ [⟨url, time, key⟩] }

/-- The per-thumbnail cache check of `drawVideoThumbnails`: serve from
`thumbnailCache` when the key is present, otherwise request a capture. -/
def requestThumbnail (s : ThumbState) (mediaId url : String) (time : ℚ) : ThumbState :=
  if cacheKey mediaId time ∈ s.cache then s
  else captureThumbnail s url time (cacheKey mediaId time)

/-- The `seeked` completion handler `onSeek`: store the captured frame under
the task's cache key, clear the busy flag, and continue with the queue if any
tasks remain. -/
def onSeeked (s : ThumbState) : ThumbState :=
  match s.current with
  | none => s
  | some task =>
      let s := { s with cache := task.cacheKey :: s.cache, current := none }
      if s.queue.isEmpty then s else processThumbQueue s

end Thumbs

/-! ## Helper lemmas -/

namespace StateTS

theorem snapshotOf_saveState (s : StateService) : snapshotOf (saveState s) = snapshotOf s := by
  simp only [saveState]
  split <;> rfl

theorem snapshotOf_restoreState (s : StateService) (snap : Snapshot) :
    snapshotOf (restoreState s snap) = snap := rfl

theorem saveState_push (s : StateService)
    (h : s.historyStack.getLast? ≠ some (snapshotOf s)) (hlen : s.historyStack.length < 50) :
    saveState s =
      { s with historyStack := s.historyStack ++ [snapshotOf s], redoStack := [] } := by
  unfold saveState
  rw [if_neg h]
  have : ¬(s.historyStack ++ [snapshotOf s]).length > 50 := by
    simp only [List.length_append, List.length_cons, List.length_nil]
    omega
  simp only [this, if_false]

theorem patchFirst_eq_self (p : Clip → Bool) (f : Clip → Clip) :
    ∀ l : List Clip, (∀ c ∈ l, p c = false) → patchFirst p f l = l := by
  intro l
  induction l with
  | nil => intro _; rfl
  | cons c cs ih =>
      intro h
      have hc := h c (List.mem_cons_self _ _)
      simp [patchFirst, hc, ih fun x hx => h x (List.mem_cons_of_mem _ hx)]

theorem patchFirst_append_cons (p : Clip → Bool) (f : Clip → Clip) (l₁ : List Clip) (a : Clip)
    (l₂ : List Clip) (h1 : ∀ c ∈ l₁, p c = false) (ha : p a = true) :
    patchFirst p f (l₁ ++ a :: l₂) = l₁ ++ f a :: l₂ := by
  induction l₁ with
  | nil => simp [patchFirst, ha]
  | cons c cs ih =>
      have hc := h1 c (List.mem_cons_self _ _)
      simp [patchFirst, hc, ih fun x hx => h1 x (List.mem_cons_of_mem _ hx)]

theorem find?_of_forall_false (p : Clip → Bool) (l : List Clip) (h : ∀ c ∈ l, p c = false) :
    l.find? p = none := by
  rw [List.find?_eq_none]
  intro x hx
  simp [h x hx]

theorem find?_append_cons (p : Clip → Bool) (l₁ : List Clip) (a : Clip) (l₂ : List Clip)
    (h1 : ∀ c ∈ l₁, p c = false) (ha : p a = true) :
    (l₁ ++ a :: l₂).find? p = some a := by
  rw [List.find?_append, find?_of_forall_false p l₁ h1]
  simp [List.find?_cons, ha]

theorem saveState_audioTracks (s : StateService) :
    (saveState s).audioTracks = s.audioTracks :=
  congrArg Snapshot.audioTracks (snapshotOf_saveState s)

theorem saveState_videoTrack (s : StateService) :
    (saveState s).videoTrack = s.videoTrack :=
  congrArg Snapshot.videoTrack (snapshotOf_saveState s)

theorem saveState_selectedClipId (s : StateService) :
    (saveState s).selectedClipId = s.selectedClipId :=
  congrArg Snapshot.selectedClipId (snapshotOf_saveState s)

theorem saveState_playbackTime (s : StateService) :
    (saveState s).playbackTime = s.playbackTime :=
  congrArg Snapshot.playbackTime (snapshotOf_saveState s)

theorem saveState_zoom (s : StateService) : (saveState s).zoom = s.zoom :=
  congrArg Snapshot.zoom (snapshotOf_saveState s)

theorem checkCollision_touching (c newClip : Clip)
    (h : newClip.startTime = c.startTime + c.duration) :
    checkCollision [c] newClip = false := by
  simp [checkCollision, h]

theorem map_id_of_forall {α : Type} (f : α → α) (l : List α) (h : ∀ a ∈ l, f a = a) :
    l.map f = l := by
  have := List.map_congr_left (g := id) h
  simpa using this

theorem applyPatch_duration (clip : Clip) (d : ℚ) :
    applyPatch clip { duration := some d } = { clip with duration := d } := rfl

/-- `findClip` on a state whose video track contains the clip (first
occurrence of its id). -/
theorem findClip_video (s : StateService) (clip : Clip) (pre post : List Clip)
    (hv : s.videoTrack = pre ++ clip :: post) (hpre : ∀ c ∈ pre, c.id ≠ clip.id) :
    findClip s clip.id = some clip := by
  unfold findClip
  rw [hv, find?_append_cons _ pre clip post
    (fun c hc => by simp [hpre c hc]) (by simp)]

/-- `findClip` on a state whose audio lanes contain the clip and whose video
track does not. -/
theorem findClip_audio (s : StateService) (clip : Clip) (lanesPre lanesPost : List (List Clip))
    (cpre cpost : List Clip)
    (ha : s.audioTracks = lanesPre ++ (cpre ++ clip :: cpost) :: lanesPost)
    (hvid : ∀ c ∈ s.videoTrack, c.id ≠ clip.id)
    (hlanesPre : ∀ lane ∈ lanesPre, ∀ c ∈ lane, c.id ≠ clip.id)
    (hcpre : ∀ c ∈ cpre, c.id ≠ clip.id) :
    findClip s clip.id = some clip := by
  unfold findClip
  rw [find?_of_forall_false _ _ (fun c hc => by simp [hvid c hc])]
  rw [ha, List.findSome?_append]
  have hnone : lanesPre.findSome? (fun t => t.find? (fun c => c.id = clip.id)) = none := by
    rw [List.findSome?_eq_none_iff]
    intro lane hlane
    exact find?_of_forall_false _ _ (fun c hc => by simp [hlanesPre lane hlane c hc])
  rw [hnone, List.findSome?_cons,
    find?_append_cons _ cpre clip cpost (fun c hc => by simp [hcpre c hc]) (by simp)]
  rfl

theorem histInv_saveState (s : StateService) (h : HistInv s) : HistInv (saveState s) := by
  unfold HistInv at h ⊢
  unfold saveState
  by_cases hd : s.historyStack.getLast? = some (snapshotOf s)
  · rw [if_pos hd]; exact h
  · rw [if_neg hd]
    simp only [List.length_nil]
    split
    · rename_i hgt
      simp only [List.length_tail, List.length_append, List.length_cons,
        List.length_nil] at hgt ⊢
      omega
    · rename_i hle
      simp only [List.length_append, List.length_cons, List.length_nil] at hle ⊢
      omega

theorem histInv_undo (s : StateService) (h : HistInv s) : HistInv (undo s) := by
  unfold HistInv at h ⊢
  unfold undo
  cases hh : s.historyStack.getLast? with
  | none => exact h
  | some snap =>
      have hne : s.historyStack ≠ [] := by
        intro he
        rw [he] at hh
        simp at hh
      have hpos : 0 < s.historyStack.length := List.length_pos.mpr hne
      simp only [restoreState, List.length_append, List.length_cons, List.length_nil,
        List.length_dropLast]
      omega

theorem histInv_redo (s : StateService) (h : HistInv s) : HistInv (redo s) := by
  unfold HistInv at h ⊢
  unfold redo
  cases hh : s.redoStack.getLast? with
  | none => exact h
  | some snap =>
      have hne : s.redoStack ≠ [] := by
        intro he
        rw [he] at hh
        simp at hh
      have hpos : 0 < s.redoStack.length := List.length_pos.mpr hne
      simp only [restoreState, List.length_append, List.length_cons, List.length_nil,
        List.length_dropLast]
      omega

theorem stacks_updateClip (s : StateService) (cid : String) (u : ClipPatch) :
    (updateClip s cid u).historyStack = s.historyStack ∧
      (updateClip s cid u).redoStack = s.redoStack := by
  unfold updateClip
  split <;> exact ⟨rfl, rfl⟩

theorem stacks_addClipToTimeline (s : StateService) (m : MediaItem) (t : ℚ) (newId : String) :
    (addClipToTimeline s m t newId).historyStack = (saveState s).historyStack ∧
      (addClipToTimeline s m t newId).redoStack = (saveState s).redoStack := by
  unfold addClipToTimeline
  rcases m with ⟨mid, mtype, mdur⟩
  cases mtype <;> exact ⟨rfl, rfl⟩

theorem stacks_addToTimelineSmart (s : StateService) (m : MediaItem) (newId : String) :
    (addToTimelineSmart s m newId).historyStack = (saveState s).historyStack ∧
      (addToTimelineSmart s m newId).redoStack = (saveState s).redoStack := by
  unfold addToTimelineSmart
  rcases m with ⟨mid, mtype, mdur⟩
  cases mtype <;> exact ⟨rfl, rfl⟩

theorem histInv_splitClip (s : StateService) (newId : String) (h : HistInv s) :
    HistInv (splitClip s newId) := by
  unfold splitClip
  cases hsel : s.selectedClipId with
  | none => exact h
  | some cid =>
      cases hfind : findClip s cid with
      | none =>
          simp only [hfind]
          exact h
      | some clip =>
          simp only [hfind]
          split
          · rcases clip with ⟨a, b, c2, d, e, ft, g2, i2⟩
            have hu := stacks_updateClip (saveState s) a
              { duration := some (s.playbackTime - c2) }
            have hs := histInv_saveState s h
            unfold HistInv at hs ⊢
            cases ft <;>
              simp only [hu.1, hu.2] <;> exact hs
          · exact h

theorem histInv_applyOp (op : Op) (s : StateService) (h : HistInv s) :
    HistInv (applyOp op s) := by
  cases op with
  | save => exact histInv_saveState s h
  | undo => exact histInv_undo s h
  | redo => exact histInv_redo s h
  | addSmart item newId =>
      have hst := stacks_addToTimelineSmart s item newId
      have hs := histInv_saveState s h
      unfold HistInv at hs ⊢
      simp only [applyOp, hst.1, hst.2]
      exact hs
  | addClip item t newId =>
      have hst := stacks_addClipToTimeline s item t newId
      have hs := histInv_saveState s h
      unfold HistInv at hs ⊢
      simp only [applyOp, hst.1, hst.2]
      exact hs
  | update cid u =>
      have hst := stacks_updateClip s cid u
      unfold HistInv at h ⊢
      simp only [applyOp, hst.1, hst.2]
      exact h
  | delete cid =>
      have hs := histInv_saveState s h
      exact hs
  | split newId => exact histInv_splitClip s newId h
  | select id => exact h
  | seek t => exact h
  | setZoom z => exact h
  | setPlaying b => exact h

theorem histInv_run (ops : List Op) (s : StateService) (h : HistInv s) :
    HistInv (run ops s) := by
  induction ops generalizing s with
  | nil => exact h
  | cons op rest ih => exact ih (applyOp op s) (histInv_applyOp op s h)

end StateTS

namespace Part3

theorem snapshotOf_saveState_p3 (s : State) : snapshotOf (saveState s) = snapshotOf s := by
  simp only [saveState]
  split <;> rfl

theorem snapshotOf_restoreState_p3 (s : State) (snap : Snapshot) :
    snapshotOf (restoreState s snap) = snap := rfl

theorem tracks_saveState (s : State) : (saveState s).tracks = s.tracks :=
  congrArg Snapshot.tracks (snapshotOf_saveState_p3 s)

theorem saveState_push_p3 (s : State)
    (h : s.historyStack.getLast? ≠ some (snapshotOf s)) (hlen : s.historyStack.length < 50) :
    saveState s =
      { s with historyStack := s.historyStack ++ [snapshotOf s], redoStack := [] } := by
  unfold saveState
  rw [if_neg h]
  have hno : ¬(s.historyStack ++ [snapshotOf s]).length > 50 := by
    simp only [List.length_append, List.length_cons, List.length_nil]
    omega
  simp only [hno, if_false]

theorem rangesChain_append_last (b : Bool) :
    ∀ (acc : List SampleRange) (a rStart i : ℤ),
      rangesChain a acc rStart → rStart ≤ i →
      rangesChain a (acc ++ [⟨rStart, i, b⟩]) i := by
  intro acc
  induction acc with
  | nil =>
      intro a rStart i h hle
      simp only [rangesChain] at h
      subst h
      simp [rangesChain, hle]
  | cons r rs ih =>
      intro a rStart i h hle
      simp only [rangesChain] at h
      obtain ⟨h1, h2, h3⟩ := h
      simp only [List.cons_append, rangesChain]
      exact ⟨h1, h2, ih r.stop rStart i h3 hle⟩

theorem rangesChain_sum :
    ∀ (rs : List SampleRange) (a b : ℤ), rangesChain a rs b →
      rangesLen rs = b - a ∧ ∀ r ∈ rs, 0 ≤ r.stop - r.start := by
  intro rs
  induction rs with
  | nil =>
      intro a b h
      simp only [rangesChain] at h
      subst h
      exact ⟨by simp [rangesLen], by simp⟩
  | cons r rest ih =>
      intro a b h
      simp only [rangesChain] at h
      obtain ⟨h1, h2, h3⟩ := h
      obtain ⟨ihs, ihn⟩ := ih r.stop b h3
      constructor
      · simp only [rangesLen, List.map_cons, List.sum_cons]
        simp only [rangesLen] at ihs
        omega
      · intro x hx
        rcases List.mem_cons.mp hx with hx | hx
        · subst hx
          omega
        · exact ihn x hx

theorem scanLoop_chain (data : ℤ → ℚ) (thr : ℚ) (sr : ℕ) (endS : ℤ) (a : ℤ) :
    ∀ (i rangeStart : ℤ) (isSpeech : Bool) (acc : List SampleRange),
      rangesChain a acc rangeStart → rangeStart ≤ i → rangeStart ≤ endS →
      rangesChain a (scanLoop data thr sr endS i rangeStart isSpeech acc) endS := by
  intro i rangeStart isSpeech acc
  induction i, rangeStart, isSpeech, acc using scanLoop.induct data thr sr endS with
  | case1 i rangeStart isSpeech acc hlt hcond ih =>
      intro hacc hle hle2
      rw [scanLoop, if_pos hlt, if_pos hcond]
      exact ih (rangesChain_append_last false acc a rangeStart i hacc hle)
        (by omega) (by omega)
  | case2 i rangeStart isSpeech acc hlt hcond1 hcond2 hfut ih =>
      intro hacc hle hle2
      rw [scanLoop, if_pos hlt, if_neg hcond1, if_pos hcond2, if_pos hfut]
      exact ih hacc (by omega) hle2
  | case3 i rangeStart isSpeech acc hlt hcond1 hcond2 hfut ih =>
      intro hacc hle hle2
      rw [scanLoop, if_pos hlt, if_neg hcond1, if_pos hcond2, if_neg hfut]
      exact ih (rangesChain_append_last true acc a rangeStart i hacc hle)
        (by omega) (by omega)
  | case4 i rangeStart isSpeech acc hlt hcond1 hcond2 ih =>
      intro hacc hle hle2
      rw [scanLoop, if_pos hlt, if_neg hcond1, if_neg hcond2]
      exact ih hacc (by omega) hle2
  | case5 i rangeStart isSpeech acc hlt =>
      intro hacc hle hle2
      rw [scanLoop, if_neg hlt]
      exact rangesChain_append_last isSpeech acc a rangeStart endS hacc hle2

theorem newClipsFrom_contiguous (clip : Clip) (sr : ℕ) (newIds : ℕ → String) :
    ∀ (segs : List SampleRange) (k : ℕ) (t : ℚ),
      contiguousFrom t (newClipsFrom clip sr newIds k t segs) := by
  intro segs
  induction segs with
  | nil =>
      intro k t
      simp [newClipsFrom, contiguousFrom]
  | cons seg rest ih =>
      intro k t
      simp only [newClipsFrom, contiguousFrom]
      exact ⟨trivial, ih (k + 1) _⟩

theorem newClipsFrom_fields (clip : Clip) (sr : ℕ) (newIds : ℕ → String) :
    ∀ (segs : List SampleRange) (k : ℕ) (t : ℚ),
      List.Forall₂ (fun (seg : SampleRange) (c : Clip) =>
          c.offset = ((seg.start : ℤ) : ℚ) / sr ∧
          c.duration = ((seg.stop - seg.start : ℤ) : ℚ) / sr ∧
          c.mediaId = clip.mediaId ∧ c.muted = clip.muted ∧ c.type = clip.type)
        segs (newClipsFrom clip sr newIds k t segs) := by
  intro segs
  induction segs with
  | nil =>
      intro k t
      simp [newClipsFrom]
  | cons seg rest ih =>
      intro k t
      simp only [newClipsFrom]
      exact List.Forall₂.cons ⟨rfl, rfl, rfl, rfl, rfl⟩ (ih _ _)

theorem newClipsFrom_sum (clip : Clip) (sr : ℕ) (newIds : ℕ → String) :
    ∀ (segs : List SampleRange) (k : ℕ) (t : ℚ),
      ((newClipsFrom clip sr newIds k t segs).map Clip.duration).sum =
        ((rangesLen segs : ℤ) : ℚ) / sr := by
  intro segs
  induction segs with
  | nil =>
      intro k t
      simp [newClipsFrom, rangesLen]
  | cons seg rest ih =>
      intro k t
      simp only [newClipsFrom, List.map_cons, List.sum_cons, rangesLen]
      rw [ih]
      simp only [rangesLen]
      push_cast
      ring

theorem speechSegments_len_le (rs : List SampleRange) (sr : ℕ) (a b : ℤ)
    (h : rangesChain a rs b) : rangesLen (speechSegments rs sr) ≤ b - a := by
  obtain ⟨hsum, hnn⟩ := rangesChain_sum rs a b h
  have hsub : (speechSegments rs sr).Sublist rs := List.filter_sublist rs
  have hle : rangesLen (speechSegments rs sr) ≤ rangesLen rs := by
    unfold rangesLen
    apply List.Sublist.sum_le_sum (hsub.map _)
    intro x hx
    obtain ⟨r, hr, hrx⟩ := List.mem_map.mp hx
    rw [← hrx]
    exact hnn r hr
  omega

theorem sampleWindow_le (clip : Clip) (sr : ℕ) (hsr : 0 < sr) :
    ((clipEndSample clip sr - clipStartSample clip sr : ℤ) : ℚ) / sr ≤
      clip.duration + 1 / sr := by
  have h1 : ((clipEndSample clip sr : ℤ) : ℚ) ≤ (clip.offset + clip.duration) * sr :=
    Int.floor_le _
  have h2 : clip.offset * sr - 1 < ((clipStartSample clip sr : ℤ) : ℚ) :=
    Int.sub_one_lt_floor _
  have hsr' : (0 : ℚ) < sr := by exact_mod_cast hsr
  rw [div_le_iff₀ hsr']
  have hexp : (clip.duration + 1 / sr) * sr = clip.duration * sr + 1 := by
    field_simp
  rw [hexp]
  push_cast
  ring_nf at h1 h2 ⊢
  linarith

/-- The state `removeSilenceTool` produces when a clip is selected, found, its
media exists, and at least one speech segment is retained. -/
theorem removeSilenceTool_eq (s : State) (data : ℤ → ℚ) (sr : ℕ) (newIds : ℕ → String)
    (cid : String) (clip : Clip) (media : Media)
    (hsel : s.selectedClipId = some cid) (hfind : findClip s cid = some clip)
    (hmedia : s.media.find? (fun m => m.id = clip.mediaId) = some media)
    (hseg : clipSpeechSegments data clip sr ≠ []) :
    removeSilenceTool s data sr newIds =
      (match clip.type with
       | MediaType.video =>
          { saveState s with
            tracks :=
              { video :=
                  (saveState s).tracks.video.filter (fun c => c.id ≠ clip.id) ++
                    newClipsFrom clip sr newIds 0 clip.startTime
                      (clipSpeechSegments data clip sr)
                audio :=
                  (saveState s).tracks.audio.map (removeFirst (fun c => c.id = clip.id)) } }
       | MediaType.audio =>
          { saveState s with
            tracks :=
              { video := (saveState s).tracks.video.filter (fun c => c.id ≠ clip.id)
                audio :=
                  ((saveState s).tracks.audio.map
                      (removeFirst (fun c => c.id = clip.id))).set 0
                    (((saveState s).tracks.audio.map
                        (removeFirst (fun c => c.id = clip.id))).getD 0 [] ++
                      newClipsFrom clip sr newIds 0 clip.startTime
                        (clipSpeechSegments data clip sr)) } }) := by
  unfold removeSilenceTool
  rw [hsel]
  simp only [hfind, hmedia]
  have hne : (clipSpeechSegments data clip sr).isEmpty = false := by
    simp [hseg]
  simp only [hne, Bool.false_eq_true, if_false]

/-- Concrete evaluation: a constant-amplitude clip with `offset = 0.95 s`,
`duration = 0.19 s` at 10 samples/s has the sample window `[9, 11)` (floored
at both ends) and yields one retained speech segment of 2 samples = 0.2 s —
one sample more than the clip's 0.19 s duration. -/
theorem example_segs :
    clipSpeechSegments (fun _ => 1)
        ⟨"a", "m", 0, 19 / 100, 19 / 20, MediaType.audio, false⟩ 10 =
      [⟨9, 11, true⟩] := by
  have hs : clipStartSample ⟨"a", "m", 0, 19 / 100, 19 / 20, MediaType.audio, false⟩ 10 = 9 := by
    unfold clipStartSample
    norm_num
  have he : clipEndSample ⟨"a", "m", 0, 19 / 100, 19 / 20, MediaType.audio, false⟩ 10 = 11 := by
    unfold clipEndSample
    norm_num
  have hmax : maxAbsLoop (fun _ => 1) 11 9 0 = 1 := by
    rw [maxAbsLoop]
    norm_num
    rw [maxAbsLoop]
    norm_num
  have hthr : clipThreshold (fun _ => 1)
      ⟨"a", "m", 0, 19 / 100, 19 / 20, MediaType.audio, false⟩ 10 = 3 / 20 := by
    unfold clipThreshold
    rw [hs, he, hmax]
    norm_num
  unfold clipSpeechSegments
  rw [hs, he, hthr]
  have hscan : scanLoop (fun _ => 1) (3 / 20) 10 11 9 9 false [] =
      [⟨9, 9, false⟩, ⟨9, 11, true⟩] := by
    rw [scanLoop]
    norm_num
    rw [scanLoop]
    norm_num
  rw [hscan]
  unfold speechSegments
  norm_num

end Part3

/-! ## Claims -/

/-- **C3.** Calling `StateService.saveState` twice with no intervening
mutation pushes exactly one new entry onto the undo stack, not two: the
second call serializes the same state, finds it equal to the new top of the
undo stack, and discards it as a no-op (here stated for a state whose top
snapshot differs from the current one and whose stack is below the 50-entry
cap, so the first call does push). -/
theorem saveState_dedup_second_call (s : StateTS.StateService)
    (hfresh : s.historyStack.getLast? ≠ some (StateTS.snapshotOf s))
    (hlen : s.historyStack.length < 50) :
    (StateTS.saveState s).historyStack.length = s.historyStack.length + 1 ∧
      StateTS.saveState (StateTS.saveState s) = StateTS.saveState s := by
  have hpush := StateTS.saveState_push s hfresh hlen
  constructor
  · rw [hpush]
    simp
  · rw [hpush]
    unfold StateTS.saveState
    rw [if_pos]
    have : StateTS.snapshotOf
        { s with historyStack := s.historyStack ++ [StateTS.snapshotOf s], redoStack := [] } =
        StateTS.snapshotOf s := rfl
    rw [this, List.getLast?_concat]

/-- Witness for C3: on the initial state the first save pushes one entry and
the second save is a no-op. -/
theorem saveState_dedup_second_call_witness :
    (StateTS.saveState StateTS.initState).historyStack.length =
        StateTS.initState.historyStack.length + 1 ∧
      StateTS.saveState (StateTS.saveState StateTS.initState) =
        StateTS.saveState StateTS.initState :=
  saveState_dedup_second_call StateTS.initState (by decide) (by decide)

/-- **C2.** For every editor state with a non-empty undo stack, `undo()` then
`redo()` restores the exact pre-undo state: the snapshot-visible fields
(tracks, selectedClipId, playbackTime, zoom) all return to their pre-undo
values. -/
theorem undo_redo_roundtrip (s : StateTS.StateService) (h : s.historyStack ≠ []) :
    StateTS.snapshotOf (StateTS.redo (StateTS.undo s)) = StateTS.snapshotOf s := by
  cases hh : s.historyStack.getLast? with
  | none =>
      exact absurd (List.getLast?_eq_none_iff.mp hh) h
  | some snap =>
      unfold StateTS.undo
      rw [hh]
      unfold StateTS.redo
      simp only [StateTS.restoreState, StateTS.snapshotOf, List.getLast?_concat]

/-- Witness for C2: a concrete state with one history entry round-trips. -/
theorem undo_redo_roundtrip_witness :
    StateTS.snapshotOf
        (StateTS.redo (StateTS.undo
          { StateTS.initState with
            historyStack := [StateTS.snapshotOf StateTS.initState], playbackTime := 7 })) =
      StateTS.snapshotOf
        { StateTS.initState with
          historyStack := [StateTS.snapshotOf StateTS.initState], playbackTime := 7 } :=
  undo_redo_roundtrip _ (by decide)

/-- **C5.** `addClipToTimeline` clamps a negative `startTime` to 0, and an
audio clip added at an explicit time goes to lane 0 unless its half-open
interval collides with a lane-0 clip, in which case it goes to lane 1
regardless of lane-1 collisions (the clip is always placed, never
rejected). -/
theorem addClip_clamp_and_lane_fallback (s : StateTS.StateService)
    (m : StateTS.MediaItem) (t : ℚ) (newId : String) (l0 l1 : List StateTS.Clip)
    (hlanes : s.audioTracks = [l0, l1]) (htype : m.type = MediaType.audio) :
    (StateTS.addedClip m t newId).startTime = max 0 t ∧
      (StateTS.addClipToTimeline s m t newId).audioTracks =
        (if StateTS.checkCollision l0 (StateTS.addedClip m t newId) = true then
          [l0, l1 ++ [StateTS.addedClip m t newId]]
        else [l0 ++ [StateTS.addedClip m t newId], l1]) := by
  refine ⟨rfl, ?_⟩
  have haud := StateTS.saveState_audioTracks s
  simp only [StateTS.addClipToTimeline, htype, haud, hlanes]
  by_cases hc : StateTS.checkCollision l0 (StateTS.addedClip m t newId) = true
  · simp [hc]
  · simp [hc]

/-- Witness for C5: adding a colliding audio clip at t = -1 is clamped to 0
and lands on lane 1. -/
theorem addClip_clamp_and_lane_fallback_witness :
    (StateTS.addedClip ⟨"m", MediaType.audio, 4⟩ (-1) "n").startTime = max 0 (-1) ∧
      (StateTS.addClipToTimeline
          { StateTS.initState with
            audioTracks := [[⟨"a", "m", 0, 4, 0, MediaType.audio, false, 1⟩], []] }
          ⟨"m", MediaType.audio, 4⟩ (-1) "n").audioTracks =
        (if StateTS.checkCollision [⟨"a", "m", 0, 4, 0, MediaType.audio, false, 1⟩]
            (StateTS.addedClip ⟨"m", MediaType.audio, 4⟩ (-1) "n") = true then
          [[⟨"a", "m", 0, 4, 0, MediaType.audio, false, 1⟩],
            [] ++ [StateTS.addedClip ⟨"m", MediaType.audio, 4⟩ (-1) "n"]]
        else
          [[⟨"a", "m", 0, 4, 0, MediaType.audio, false, 1⟩,
              StateTS.addedClip ⟨"m", MediaType.audio, 4⟩ (-1) "n"], []]) :=
  addClip_clamp_and_lane_fallback _ _ _ _ _ _ rfl rfl

/-- **C10.** The collision check treats clip intervals as half-open
`[startTime, startTime + duration)`: a clip starting exactly where another
ends is not a collision, and an audio clip added exactly at the end of the
lane-0 clip stays on lane 0. -/
theorem collision_halfOpen_touching :
    (∀ c newClip : StateTS.Clip, newClip.startTime = c.startTime + c.duration →
        StateTS.checkCollision [c] newClip = false) ∧
      ∀ (s : StateTS.StateService) (m : StateTS.MediaItem) (t : ℚ) (newId : String)
        (c : StateTS.Clip) (l1 : List StateTS.Clip),
        s.audioTracks = [[c], l1] → m.type = MediaType.audio →
        max 0 t = c.startTime + c.duration →
        (StateTS.addClipToTimeline s m t newId).audioTracks =
          [[c, StateTS.addedClip m t newId], l1] := by
  refine ⟨fun c newClip h => StateTS.checkCollision_touching c newClip h, ?_⟩
  intro s m t newId c l1 hlanes htype hend
  have hc : StateTS.checkCollision [c] (StateTS.addedClip m t newId) = false :=
    StateTS.checkCollision_touching c _ hend
  have haud := StateTS.saveState_audioTracks s
  simp only [StateTS.addClipToTimeline, htype, haud, hlanes]
  simp [hc]

/-- Witness for C10: a 4-second clip at 0 does not collide with a clip added
exactly at time 4, which is placed on lane 0. -/
theorem collision_halfOpen_touching_witness :
    StateTS.checkCollision [⟨"a", "m", 0, 4, 0, MediaType.audio, false, 1⟩]
        (StateTS.addedClip ⟨"m2", MediaType.audio, 3⟩ 4 "n") = false ∧
      (StateTS.addClipToTimeline
          { StateTS.initState with
            audioTracks := [[⟨"a", "m", 0, 4, 0, MediaType.audio, false, 1⟩], []] }
          ⟨"m2", MediaType.audio, 3⟩ 4 "n").audioTracks =
        [[⟨"a", "m", 0, 4, 0, MediaType.audio, false, 1⟩,
            StateTS.addedClip ⟨"m2", MediaType.audio, 3⟩ 4 "n"], []] :=
  ⟨collision_halfOpen_touching.1 _ _ (by norm_num [StateTS.addedClip]),
    collision_halfOpen_touching.2 _ _ _ _ _ _ rfl rfl (by norm_num)⟩

/-- **C4 (amended).** After any sequence of operations (save, undo, redo and
every mutating command) from the initial state, the undo history stack holds
at most 50 snapshots (the oldest entry is evicted when a push would exceed
50), and every push performed by the save operation empties the redo stack.
(The compensating push performed by `redo()` does *not* empty the redo stack —
see the counterexample.) -/
theorem history_cap_and_save_clears_redo :
    (∀ ops : List StateTS.Op,
        (StateTS.run ops StateTS.initState).historyStack.length ≤ 50) ∧
      ∀ s : StateTS.StateService,
        (StateTS.saveState s).historyStack ≠ s.historyStack →
        (StateTS.saveState s).redoStack = [] := by
  constructor
  · intro ops
    have h := StateTS.histInv_run ops StateTS.initState
      (by unfold StateTS.HistInv StateTS.initState; simp)
    unfold StateTS.HistInv at h
    omega
  · intro s hne
    unfold StateTS.saveState at hne ⊢
    by_cases hd : s.historyStack.getLast? = some (StateTS.snapshotOf s)
    · rw [if_pos hd] at hne
      exact absurd rfl hne
    · rw [if_neg hd]

/-- Witness for C4: the cap holds after a concrete run, and a concrete save
that pushes clears the redo stack. -/
theorem history_cap_and_save_clears_redo_witness :
    (StateTS.run [StateTS.Op.save, StateTS.Op.seek 3, StateTS.Op.save]
        StateTS.initState).historyStack.length ≤ 50 ∧
      (StateTS.saveState
          { StateTS.initState with
            redoStack := [StateTS.snapshotOf StateTS.initState] }).redoStack = [] :=
  ⟨history_cap_and_save_clears_redo.1 [StateTS.Op.save, StateTS.Op.seek 3, StateTS.Op.save],
    history_cap_and_save_clears_redo.2
      { StateTS.initState with redoStack := [StateTS.snapshotOf StateTS.initState] }
      (by decide)⟩

/-- **C4, counterexample to the claim as stated.** `redo()` also pushes onto
the undo stack, but does not empty the redo stack: after the reachable
operation sequence save/seek/save/seek/save/undo/undo, the final `redo`
pushes a snapshot onto the undo stack (its length grows by one) while the
redo stack stays non-empty. -/
theorem redo_push_keeps_redoStack_counterexample :
    (StateTS.run [StateTS.Op.seek 1, StateTS.Op.save, StateTS.Op.seek 2, StateTS.Op.save,
        StateTS.Op.seek 3, StateTS.Op.save, StateTS.Op.undo, StateTS.Op.undo,
        StateTS.Op.redo] StateTS.initState).historyStack.length =
      (StateTS.run [StateTS.Op.seek 1, StateTS.Op.save, StateTS.Op.seek 2, StateTS.Op.save,
          StateTS.Op.seek 3, StateTS.Op.save, StateTS.Op.undo, StateTS.Op.undo]
        StateTS.initState).historyStack.length + 1 ∧
      (StateTS.run [StateTS.Op.seek 1, StateTS.Op.save, StateTS.Op.seek 2, StateTS.Op.save,
          StateTS.Op.seek 3, StateTS.Op.save, StateTS.Op.undo, StateTS.Op.undo,
          StateTS.Op.redo] StateTS.initState).redoStack ≠ [] := by
  decide

/-- **C1.** `splitClip` at a playhead strictly inside the selected clip C
(guarded by the 0.05 s = 1/20 epsilon at both ends) replaces C by two clips
A = `splitFirst` and B = `splitSecond`: A keeps C's id and is truncated to
duration `t - C.startTime`; B has `startTime = t`,
`duration = C.duration - (t - C.startTime)`,
`offset = C.offset + (t - C.startTime)`, a fresh id, and inherits all other
attributes; consequently `A.duration + B.duration = C.duration` and
`B.offset = C.offset + A.duration` (exactly, in rational arithmetic).
Stated both for a clip on the video track and for a clip on an audio lane. -/
theorem splitClip_spec :
    (∀ (s : StateTS.StateService) (newId : String) (clip : StateTS.Clip)
        (pre post : List StateTS.Clip),
        s.videoTrack = pre ++ clip :: post →
        (∀ c ∈ pre, c.id ≠ clip.id) →
        (∀ c ∈ s.videoTrack, c.id ≠ newId) →
        s.selectedClipId = some clip.id →
        clip.type = MediaType.video →
        1 / 20 < s.playbackTime - clip.startTime →
        s.playbackTime - clip.startTime < clip.duration - 1 / 20 →
        (StateTS.splitClip s newId).videoTrack =
            pre ++ StateTS.splitFirst clip s.playbackTime ::
              (post ++ [StateTS.splitSecond clip s.playbackTime newId]) ∧
          (StateTS.splitClip s newId).audioTracks = s.audioTracks ∧
          (StateTS.splitClip s newId).selectedClipId = s.selectedClipId ∧
          (StateTS.splitClip s newId).playbackTime = s.playbackTime ∧
          (StateTS.splitClip s newId).zoom = s.zoom ∧
          (StateTS.splitFirst clip s.playbackTime).id = clip.id ∧
          (StateTS.splitSecond clip s.playbackTime newId).id = newId ∧
          (StateTS.splitFirst clip s.playbackTime).duration +
              (StateTS.splitSecond clip s.playbackTime newId).duration = clip.duration ∧
          (StateTS.splitSecond clip s.playbackTime newId).offset =
            clip.offset + (StateTS.splitFirst clip s.playbackTime).duration) ∧
      ∀ (s : StateTS.StateService) (newId : String) (clip : StateTS.Clip)
        (lanesPre lanesPost : List (List StateTS.Clip)) (cpre cpost : List StateTS.Clip),
        s.audioTracks = lanesPre ++ (cpre ++ clip :: cpost) :: lanesPost →
        (∀ c ∈ s.videoTrack, c.id ≠ clip.id) →
        (∀ lane ∈ lanesPre, ∀ c ∈ lane, c.id ≠ clip.id) →
        (∀ c ∈ cpre, c.id ≠ clip.id) →
        (∀ lane ∈ lanesPost, ∀ c ∈ lane, c.id ≠ clip.id) →
        s.selectedClipId = some clip.id →
        clip.type = MediaType.audio →
        1 / 20 < s.playbackTime - clip.startTime →
        s.playbackTime - clip.startTime < clip.duration - 1 / 20 →
        (StateTS.splitClip s newId).audioTracks =
            lanesPre ++
              (cpre ++ StateTS.splitFirst clip s.playbackTime ::
                (cpost ++ [StateTS.splitSecond clip s.playbackTime newId])) :: lanesPost ∧
          (StateTS.splitClip s newId).videoTrack = s.videoTrack ∧
          (StateTS.splitClip s newId).selectedClipId = s.selectedClipId ∧
          (StateTS.splitClip s newId).playbackTime = s.playbackTime ∧
          (StateTS.splitClip s newId).zoom = s.zoom ∧
          (StateTS.splitFirst clip s.playbackTime).duration +
              (StateTS.splitSecond clip s.playbackTime newId).duration = clip.duration ∧
          (StateTS.splitSecond clip s.playbackTime newId).offset =
            clip.offset + (StateTS.splitFirst clip s.playbackTime).duration := by
  constructor
  · intro s newId clip pre post hv hpre hfresh hsel htype h1 h2
    obtain ⟨cid, cmid, cst, cdur, coff, ctype, cmut, cvol⟩ := clip
    have htype' : ctype = MediaType.video := htype
    subst htype'
    set clip : StateTS.Clip := ⟨cid, cmid, cst, cdur, coff, MediaType.video, cmut, cvol⟩
      with hclip
    have hfind := StateTS.findClip_video s clip pre post hv hpre
    have hany : (StateTS.saveState s).videoTrack.any (fun c => c.id = clip.id) = true := by
      rw [StateTS.saveState_videoTrack, hv]
      simp
    have hupd : StateTS.updateClip (StateTS.saveState s) clip.id
        { duration := some (s.playbackTime - clip.startTime) } =
        { StateTS.saveState s with
          videoTrack := pre ++ StateTS.splitFirst clip s.playbackTime :: post } := by
      unfold StateTS.updateClip
      rw [if_pos hany, StateTS.saveState_videoTrack, hv,
        StateTS.patchFirst_append_cons _ _ pre clip post
          (fun c hc => by simp [hpre c hc]) (by simp)]
      rfl
    simp only [StateTS.splitClip, hsel, hfind]
    rw [if_pos ⟨h1, h2⟩]
    rw [show StateTS.updateClip (StateTS.saveState s) cid
        { duration := some (s.playbackTime - cst) } =
        { StateTS.saveState s with
          videoTrack := pre ++ StateTS.splitFirst clip s.playbackTime :: post } from hupd]
    refine ⟨?_, ?_, ?_, ?_, ?_, rfl, rfl, ?_, rfl⟩
    · show (pre ++ StateTS.splitFirst clip s.playbackTime :: post) ++
          [StateTS.splitSecond clip s.playbackTime newId] = _
      simp
    · exact StateTS.saveState_audioTracks s
    · exact (StateTS.saveState_selectedClipId s).trans hsel
    · exact StateTS.saveState_playbackTime s
    · exact StateTS.saveState_zoom s
    · show s.playbackTime - clip.startTime +
          (clip.duration - (s.playbackTime - clip.startTime)) = clip.duration
      ring
  · intro s newId clip lanesPre lanesPost cpre cpost ha hvid hlanesPre hcpre hlanesPost
      hsel htype h1 h2
    have hfind := StateTS.findClip_audio s clip lanesPre lanesPost cpre cpost ha hvid
      hlanesPre hcpre
    have hanyv : (StateTS.saveState s).videoTrack.any (fun c => c.id = clip.id) = false := by
      rw [StateTS.saveState_videoTrack, List.any_eq_false]
      intro c hc
      simp [hvid c hc]
    have hupd : StateTS.updateClip (StateTS.saveState s) clip.id
        { duration := some (s.playbackTime - clip.startTime) } =
        { StateTS.saveState s with
          audioTracks :=
            lanesPre ++
              (cpre ++ StateTS.splitFirst clip s.playbackTime :: cpost) :: lanesPost } := by
      unfold StateTS.updateClip
      rw [if_neg (by rw [hanyv]; exact Bool.false_ne_true),
        StateTS.saveState_audioTracks, ha, List.map_append, List.map_cons,
        StateTS.patchFirst_append_cons _ _ cpre clip cpost
          (fun c hc => by simp [hcpre c hc]) (by simp),
        StateTS.map_id_of_forall _ lanesPre
          (fun lane hlane => StateTS.patchFirst_eq_self _ _ lane
            (fun c hc => by simp [hlanesPre lane hlane c hc])),
        StateTS.map_id_of_forall _ lanesPost
          (fun lane hlane => StateTS.patchFirst_eq_self _ _ lane
            (fun c hc => by simp [hlanesPost lane hlane c hc]))]
      rfl
    simp only [StateTS.splitClip, hsel, hfind]
    rw [if_pos ⟨h1, h2⟩]
    simp only [htype]
    rw [hupd]
    refine ⟨?_, ?_, ?_, ?_, ?_, ?_, rfl⟩
    · simp only []
      rw [List.map_append, List.map_cons,
        StateTS.map_id_of_forall _ lanesPre (fun lane hlane => by
          have hfalse : lane.any (fun c => c.id = clip.id) = false := by
            rw [List.any_eq_false]
            intro c hc
            simp [hlanesPre lane hlane c hc]
          simp [hfalse]),
        StateTS.map_id_of_forall _ lanesPost (fun lane hlane => by
          have hfalse : lane.any (fun c => c.id = clip.id) = false := by
            rw [List.any_eq_false]
            intro c hc
            simp [hlanesPost lane hlane c hc]
          simp [hfalse])]
      have hmid : (cpre ++ StateTS.splitFirst clip s.playbackTime :: cpost).any
          (fun c => c.id = clip.id) = true := by
        simp [StateTS.splitFirst]
      simp [hmid, StateTS.splitSecond, htype]
    · exact StateTS.saveState_videoTrack s
    · exact (StateTS.saveState_selectedClipId s).trans hsel
    · exact StateTS.saveState_playbackTime s
    · exact StateTS.saveState_zoom s
    · show s.playbackTime - clip.startTime +
          (clip.duration - (s.playbackTime - clip.startTime)) = clip.duration
      ring

/-- Witness for C1: the spec's own example (a 10 s video clip split at t = 6
gives durations 6 and 4, offset 6) and an audio clip of duration 4 split at
t = 2. -/
theorem splitClip_spec_witness :
    ((StateTS.splitClip
        { StateTS.initState with
          videoTrack := [⟨"a", "m", 0, 10, 0, MediaType.video, false, 1⟩]
          selectedClipId := some "a"
          playbackTime := 6 } "n").videoTrack =
      [] ++ StateTS.splitFirst ⟨"a", "m", 0, 10, 0, MediaType.video, false, 1⟩ 6 ::
        ([] ++ [StateTS.splitSecond ⟨"a", "m", 0, 10, 0, MediaType.video, false, 1⟩ 6 "n"])) ∧
      (StateTS.splitClip
        { StateTS.initState with
          audioTracks := [[⟨"b", "m", 0, 4, 0, MediaType.audio, false, 1⟩], []]
          selectedClipId := some "b"
          playbackTime := 2 } "n2").audioTracks =
        [] ++ ([] ++ StateTS.splitFirst ⟨"b", "m", 0, 4, 0, MediaType.audio, false, 1⟩ 2 ::
          ([] ++ [StateTS.splitSecond ⟨"b", "m", 0, 4, 0, MediaType.audio, false, 1⟩ 2 "n2"])) ::
          [[]] :=
  ⟨(splitClip_spec.1
      { StateTS.initState with
        videoTrack := [⟨"a", "m", 0, 10, 0, MediaType.video, false, 1⟩]
        selectedClipId := some "a"
        playbackTime := 6 } "n" ⟨"a", "m", 0, 10, 0, MediaType.video, false, 1⟩ [] []
      rfl (by decide) (by decide) rfl rfl (by norm_num [StateTS.initState])
      (by norm_num [StateTS.initState])).1,
    (splitClip_spec.2
      { StateTS.initState with
        audioTracks := [[⟨"b", "m", 0, 4, 0, MediaType.audio, false, 1⟩], []]
        selectedClipId := some "b"
        playbackTime := 2 } "n2" ⟨"b", "m", 0, 4, 0, MediaType.audio, false, 1⟩ [] [[]] [] []
      rfl (by decide) (by decide) (by decide) (by decide) rfl rfl
      (by norm_num [StateTS.initState]) (by norm_num [StateTS.initState])).1⟩

/-- **C6 (amended).** When silence removal retains at least one speech
segment, `removeSilenceTool` removes the source clip and creates one new clip
per retained segment in order, placed back-to-back starting at the original
clip's `startTime` (silence collapsed, no gaps), each with
`offset = segment.start / sampleRate`,
`duration = (segment.end - segment.start) / sampleRate`, inheriting the
original's `mediaId`, mute state and kind (video clips are appended to the
video track, audio clips to lane 0); the new clips' durations sum to at most
the original clip's duration **plus one source sample (1/sampleRate)** — the
sub-sample slack comes from flooring both bounds of the clip's sample window,
so the sum can exceed the clip duration by strictly less than one sample (see
the counterexample). -/
theorem removeSilence_ripple (s : Part3.State) (data : ℤ → ℚ) (sr : ℕ)
    (newIds : ℕ → String) (cid : String) (clip : Part3.Clip) (media : Part3.Media)
    (hsr : 0 < sr) (hdur : 0 ≤ clip.duration)
    (hsel : s.selectedClipId = some cid) (hfind : Part3.findClip s cid = some clip)
    (hmedia : s.media.find? (fun m => m.id = clip.mediaId) = some media)
    (hseg : Part3.clipSpeechSegments data clip sr ≠ []) :
    (clip.type = MediaType.video →
        (Part3.removeSilenceTool s data sr newIds).tracks.video =
            s.tracks.video.filter (fun c => c.id ≠ clip.id) ++
              Part3.newClipsFrom clip sr newIds 0 clip.startTime
                (Part3.clipSpeechSegments data clip sr) ∧
          (Part3.removeSilenceTool s data sr newIds).tracks.audio =
            s.tracks.audio.map (Part3.removeFirst (fun c => c.id = clip.id))) ∧
      (clip.type = MediaType.audio →
        (Part3.removeSilenceTool s data sr newIds).tracks.video =
            s.tracks.video.filter (fun c => c.id ≠ clip.id) ∧
          (Part3.removeSilenceTool s data sr newIds).tracks.audio =
            (s.tracks.audio.map (Part3.removeFirst (fun c => c.id = clip.id))).set 0
              ((s.tracks.audio.map
                    (Part3.removeFirst (fun c => c.id = clip.id))).getD 0 [] ++
                Part3.newClipsFrom clip sr newIds 0 clip.startTime
                  (Part3.clipSpeechSegments data clip sr))) ∧
      Part3.contiguousFrom clip.startTime
        (Part3.newClipsFrom clip sr newIds 0 clip.startTime
          (Part3.clipSpeechSegments data clip sr)) ∧
      List.Forall₂ (fun (seg : Part3.SampleRange) (c : Part3.Clip) =>
          c.offset = ((seg.start : ℤ) : ℚ) / sr ∧
          c.duration = ((seg.stop - seg.start : ℤ) : ℚ) / sr ∧
          c.mediaId = clip.mediaId ∧ c.muted = clip.muted ∧ c.type = clip.type)
        (Part3.clipSpeechSegments data clip sr)
        (Part3.newClipsFrom clip sr newIds 0 clip.startTime
          (Part3.clipSpeechSegments data clip sr)) ∧
      ((Part3.newClipsFrom clip sr newIds 0 clip.startTime
            (Part3.clipSpeechSegments data clip sr)).map Part3.Clip.duration).sum ≤
        clip.duration + 1 / sr := by
  have heq := Part3.removeSilenceTool_eq s data sr newIds cid clip media hsel hfind
    hmedia hseg
  have htr := Part3.tracks_saveState s
  refine ⟨?_, ?_, Part3.newClipsFrom_contiguous clip sr newIds _ 0 clip.startTime,
    Part3.newClipsFrom_fields clip sr newIds _ 0 clip.startTime, ?_⟩
  · intro htype
    rw [heq]
    simp only [htype, htr]
    exact ⟨trivial, trivial⟩
  · intro htype
    rw [heq]
    simp only [htype, htr]
    exact ⟨trivial, trivial⟩
  · have hss : Part3.clipStartSample clip sr ≤ Part3.clipEndSample clip sr := by
      apply Int.floor_le_floor
      have : (0 : ℚ) ≤ clip.duration * sr := by positivity
      nlinarith
    have hchain := Part3.scanLoop_chain data (Part3.clipThreshold data clip sr) sr
      (Part3.clipEndSample clip sr) (Part3.clipStartSample clip sr)
      (Part3.clipStartSample clip sr) (Part3.clipStartSample clip sr) false []
      (by simp [Part3.rangesChain]) le_rfl hss
    have hlen : Part3.rangesLen (Part3.clipSpeechSegments data clip sr) ≤
        Part3.clipEndSample clip sr - Part3.clipStartSample clip sr := by
      unfold Part3.clipSpeechSegments
      exact Part3.speechSegments_len_le _ sr _ _ hchain
    rw [Part3.newClipsFrom_sum clip sr newIds _ 0 clip.startTime]
    have hsr' : (0 : ℚ) < sr := by exact_mod_cast hsr
    have hmono : ((Part3.rangesLen (Part3.clipSpeechSegments data clip sr) : ℤ) : ℚ) / sr ≤
        ((Part3.clipEndSample clip sr - Part3.clipStartSample clip sr : ℤ) : ℚ) / sr := by
      have hlen' : ((Part3.rangesLen (Part3.clipSpeechSegments data clip sr) : ℤ) : ℚ) ≤
          ((Part3.clipEndSample clip sr - Part3.clipStartSample clip sr : ℤ) : ℚ) := by
        exact_mod_cast hlen
      exact (div_le_div_iff_of_pos_right hsr').mpr hlen'
    exact hmono.trans (Part3.sampleWindow_le clip sr hsr)

/-- Witness for C6: at 10 samples/s, a clip of duration 0.19 s yields one
retained segment whose clip durations sum to 0.2 s ≤ 0.19 s + one sample. -/
theorem removeSilence_ripple_witness :
    ((Part3.newClipsFrom ⟨"a", "m", 0, 19 / 100, 19 / 20, MediaType.audio, false⟩ 10
          (fun _ => "n") 0
          (Part3.Clip.startTime ⟨"a", "m", 0, 19 / 100, 19 / 20, MediaType.audio, false⟩)
          (Part3.clipSpeechSegments (fun _ => 1)
            ⟨"a", "m", 0, 19 / 100, 19 / 20, MediaType.audio, false⟩ 10)).map
        Part3.Clip.duration).sum ≤
      Part3.Clip.duration ⟨"a", "m", 0, 19 / 100, 19 / 20, MediaType.audio, false⟩ + 1 / 10 :=
  (removeSilence_ripple
    ⟨[⟨"m", "u"⟩],
      ⟨[], [[⟨"a", "m", 0, 19 / 100, 19 / 20, MediaType.audio, false⟩], []]⟩,
      0, false, 20, some "a", [], []⟩
    (fun _ => 1) 10 (fun _ => "n") "a"
    ⟨"a", "m", 0, 19 / 100, 19 / 20, MediaType.audio, false⟩ ⟨"m", "u"⟩
    (by norm_num) (by norm_num) rfl (by simp [Part3.findClip]) (by simp)
    (by rw [Part3.example_segs]; simp)).2.2.2.2

/-- **C6, counterexample to the claim as stated.** The new clips' durations do
*not* always sum to at most the original clip's duration: flooring both ends
of the sample window can add up to one extra source sample.  With a
constant-loud clip (`offset` 0.95 s, `duration` 0.19 s, 10 samples/s) the
single output clip has duration 0.2 s > 0.19 s. -/
theorem removeSilence_sum_counterexample :
    ¬((((Part3.removeSilenceTool
            ⟨[⟨"m", "u"⟩],
              ⟨[], [[⟨"a", "m", 0, 19 / 100, 19 / 20, MediaType.audio, false⟩], []]⟩,
              0, false, 20, some "a", [], []⟩
            (fun _ => 1) 10 (fun _ => "n")).tracks.audio.getD 0 []).map
          Part3.Clip.duration).sum ≤
        Part3.Clip.duration ⟨"a", "m", 0, 19 / 100, 19 / 20, MediaType.audio, false⟩) := by
  have heq := Part3.removeSilenceTool_eq
    ⟨[⟨"m", "u"⟩],
      ⟨[], [[⟨"a", "m", 0, 19 / 100, 19 / 20, MediaType.audio, false⟩], []]⟩,
      0, false, 20, some "a", [], []⟩
    (fun _ => 1) 10 (fun _ => "n") "a"
    ⟨"a", "m", 0, 19 / 100, 19 / 20, MediaType.audio, false⟩ ⟨"m", "u"⟩
    rfl (by simp [Part3.findClip]) (by simp)
    (by rw [Part3.example_segs]; simp)
  rw [heq, Part3.example_segs, Part3.tracks_saveState]
  norm_num [Part3.removeFirst, Part3.newClipsFrom]

/-- **C7 (amended).** In the `part_003` engine, silence removal is one atomic,
undoable operation: when it applies, it pushes exactly one history snapshot —
the pre-operation state — so a single `undo()` immediately afterwards restores
the timeline (including the original un-split clip), selection, playhead and
zoom to their exact pre-operation values.  The legacy `script.js`
`removeSilence` instead deliberately pushes *two* snapshots (split, then
silence deletion), so there a single undo restores the intermediate split
state and two undos restore the original — see the counterexample. -/
theorem removeSilence_atomic_single_undo (s : Part3.State) (data : ℤ → ℚ) (sr : ℕ)
    (newIds : ℕ → String) (cid : String) (clip : Part3.Clip) (media : Part3.Media)
    (hsel : s.selectedClipId = some cid) (hfind : Part3.findClip s cid = some clip)
    (hmedia : s.media.find? (fun m => m.id = clip.mediaId) = some media)
    (hseg : Part3.clipSpeechSegments data clip sr ≠ [])
    (htop : s.historyStack.getLast? ≠ some (Part3.snapshotOf s))
    (hcap : s.historyStack.length < 50) :
    (Part3.removeSilenceTool s data sr newIds).historyStack =
        s.historyStack ++ [Part3.snapshotOf s] ∧
      Part3.snapshotOf (Part3.undo (Part3.removeSilenceTool s data sr newIds)) =
        Part3.snapshotOf s := by
  have heq := Part3.removeSilenceTool_eq s data sr newIds cid clip media hsel hfind
    hmedia hseg
  have hpush := Part3.saveState_push_p3 s htop hcap
  have hhist : (Part3.removeSilenceTool s data sr newIds).historyStack =
      s.historyStack ++ [Part3.snapshotOf s] := by
    rw [heq]
    rcases clip with ⟨a1, a2, a3, a4, a5, ft, a7⟩
    cases ft
    · rw [hpush]
    · rw [hpush]
  refine ⟨hhist, ?_⟩
  rw [Part3.undo, hhist, List.getLast?_concat]
  exact Part3.snapshotOf_restoreState_p3 _ _

/-- Witness for C7: on a concrete one-clip state, `removeSilenceTool` pushes
exactly the pre-operation snapshot and a single undo restores it. -/
theorem removeSilence_atomic_single_undo_witness :
    (Part3.removeSilenceTool
          ⟨[⟨"m", "u"⟩],
            ⟨[], [[⟨"a", "m", 0, 19 / 100, 19 / 20, MediaType.audio, false⟩], []]⟩,
            0, false, 20, some "a", [], []⟩
          (fun _ => 1) 10 (fun _ => "n")).historyStack =
        [] ++ [Part3.snapshotOf
          ⟨[⟨"m", "u"⟩],
            ⟨[], [[⟨"a", "m", 0, 19 / 100, 19 / 20, MediaType.audio, false⟩], []]⟩,
            0, false, 20, some "a", [], []⟩] ∧
      Part3.snapshotOf
          (Part3.undo
            (Part3.removeSilenceTool
              ⟨[⟨"m", "u"⟩],
                ⟨[], [[⟨"a", "m", 0, 19 / 100, 19 / 20, MediaType.audio, false⟩], []]⟩,
                0, false, 20, some "a", [], []⟩
              (fun _ => 1) 10 (fun _ => "n"))) =
        Part3.snapshotOf
          ⟨[⟨"m", "u"⟩],
            ⟨[], [[⟨"a", "m", 0, 19 / 100, 19 / 20, MediaType.audio, false⟩], []]⟩,
            0, false, 20, some "a", [], []⟩ :=
  removeSilence_atomic_single_undo
    ⟨[⟨"m", "u"⟩],
      ⟨[], [[⟨"a", "m", 0, 19 / 100, 19 / 20, MediaType.audio, false⟩], []]⟩,
      0, false, 20, some "a", [], []⟩
    (fun _ => 1) 10 (fun _ => "n") "a"
    ⟨"a", "m", 0, 19 / 100, 19 / 20, MediaType.audio, false⟩ ⟨"m", "u"⟩
    rfl (by simp [Part3.findClip]) (by simp) (by rw [Part3.example_segs]; simp)
    (by simp) (by simp)

/-- **C7, counterexample to the claim as stated.** The `script.js`
`removeSilence` is *not* a single-snapshot operation: on a 10 s video clip
with one speech chunk [2 s, 4 s], it pushes two history snapshots, and a
single `undo()` lands on the intermediate state with three split clips
(speech and silence), not the original single-clip timeline. -/
theorem scriptjs_removeSilence_two_step_counterexample :
    (ScriptJS.removeSilence
          ⟨[⟨"m", "u"⟩], ⟨[⟨"c", "m", 0, 10, 0, MediaType.video, false, false⟩], []⟩,
            0, 20, some "c", [], []⟩
          [⟨2, 4⟩] (fun _ => "n")).historyStack.length = 2 ∧
      (ScriptJS.undo
          (ScriptJS.removeSilence
            ⟨[⟨"m", "u"⟩], ⟨[⟨"c", "m", 0, 10, 0, MediaType.video, false, false⟩], []⟩,
              0, 20, some "c", [], []⟩
            [⟨2, 4⟩] (fun _ => "n"))).tracks.video.length = 3 ∧
      (⟨[⟨"m", "u"⟩], ⟨[⟨"c", "m", 0, 10, 0, MediaType.video, false, false⟩], []⟩,
          0, 20, some "c", [], []⟩ : ScriptJS.State).tracks.video.length = 1 := by
  refine ⟨?_, ?_, rfl⟩ <;>
    norm_num [ScriptJS.removeSilence, ScriptJS.getTrack, ScriptJS.setTrack,
      ScriptJS.allSegments, ScriptJS.allSegmentsLoop, ScriptJS.splitClips,
      ScriptJS.reposition, ScriptJS.saveState, ScriptJS.snapshotOf, ScriptJS.undo,
      ScriptJS.restoreState]

/-- **C9.** Two thumbnail requests for the same media id whose times quantize
to the same 0.1 s cache-key step cause exactly one capture invocation on the
shared capture element: the first request (on an idle, non-playing pipeline)
starts one capture, its completion populates the cache under the key
(mediaId, ⌊time·10⌋), and the second request is served from the cache without
touching the capture element. -/
theorem thumbnail_cache_single_capture (s : Thumbs.ThumbState) (mediaId url : String)
    (t1 t2 : ℚ)
    (hp : s.playing = false) (hc : s.current = none) (hq : s.queue = [])
    (hmiss : Thumbs.cacheKey mediaId t1 ∉ s.cache)
    (hsame : ⌊t1 * 10⌋ = ⌊t2 * 10⌋) :
    (Thumbs.requestThumbnail s mediaId url t1).captures = s.captures + 1 ∧
      Thumbs.cacheKey mediaId t2 ∈
        (Thumbs.onSeeked (Thumbs.requestThumbnail s mediaId url t1)).cache ∧
      Thumbs.requestThumbnail (Thumbs.onSeeked (Thumbs.requestThumbnail s mediaId url t1))
          mediaId url t2 =
        Thumbs.onSeeked (Thumbs.requestThumbnail s mediaId url t1) := by
  have hkey : Thumbs.cacheKey mediaId t2 = Thumbs.cacheKey mediaId t1 := by
    unfold Thumbs.cacheKey
    rw [hsame]
  have h1 : Thumbs.requestThumbnail s mediaId url t1 =
      { s with
        queue := []
        current := some ⟨url, t1, Thumbs.cacheKey mediaId t1⟩
        captures := s.captures + 1 } := by
    unfold Thumbs.requestThumbnail
    rw [if_neg hmiss]
    unfold Thumbs.captureThumbnail Thumbs.processThumbQueue
    rw [hq]
    simp [hp, hc]
  have h2 : Thumbs.onSeeked (Thumbs.requestThumbnail s mediaId url t1) =
      { s with
        queue := []
        current := none
        cache := Thumbs.cacheKey mediaId t1 :: s.cache
        captures := s.captures + 1 } := by
    rw [h1]
    unfold Thumbs.onSeeked
    simp
  refine ⟨by rw [h1], ?_, ?_⟩
  · rw [h2, hkey]
    exact List.mem_cons_self _ _
  · rw [h2]
    unfold Thumbs.requestThumbnail
    rw [hkey, if_pos (List.mem_cons_self _ _)]

/-- Witness for C9: requests at 0.3 s and 0.38 s share the quantized key;
on an empty pipeline the pair costs exactly one capture. -/
theorem thumbnail_cache_single_capture_witness :
    (Thumbs.requestThumbnail ⟨[], [], none, false, 0⟩ "m" "u" (3 / 10)).captures = 0 + 1 ∧
      Thumbs.cacheKey "m" (38 / 100) ∈
        (Thumbs.onSeeked
          (Thumbs.requestThumbnail ⟨[], [], none, false, 0⟩ "m" "u" (3 / 10))).cache ∧
      Thumbs.requestThumbnail
          (Thumbs.onSeeked (Thumbs.requestThumbnail ⟨[], [], none, false, 0⟩ "m" "u" (3 / 10)))
          "m" "u" (38 / 100) =
        Thumbs.onSeeked (Thumbs.requestThumbnail ⟨[], [], none, false, 0⟩ "m" "u" (3 / 10)) :=
  thumbnail_cache_single_capture ⟨[], [], none, false, 0⟩ "m" "u" (3 / 10) (38 / 100)
    rfl rfl rfl (by simp) (by norm_num)

/-- **C8.** Timeline operations on a non-existent clip id are no-ops that
never throw — `updateClip` returns the state unchanged, `deleteClip` leaves
every track and the snapshot-visible fields unchanged (selection included,
when it does not dangle on the missing id), `splitClip` with an unknown or
missing selection returns the state unchanged — and `splitClip` with a split
time outside the valid range of the clip silently leaves the whole state
unchanged instead of raising an error. -/
theorem unknown_id_and_out_of_range_noop :
    (∀ (s : StateTS.StateService) (cid : String) (u : StateTS.ClipPatch),
        (∀ c ∈ s.videoTrack, c.id ≠ cid) →
        (∀ lane ∈ s.audioTracks, ∀ c ∈ lane, c.id ≠ cid) →
        StateTS.updateClip s cid u = s) ∧
      (∀ (s : StateTS.StateService) (cid : String),
        (∀ c ∈ s.videoTrack, c.id ≠ cid) →
        (∀ lane ∈ s.audioTracks, ∀ c ∈ lane, c.id ≠ cid) →
        s.selectedClipId ≠ some cid →
        (StateTS.deleteClip s cid).videoTrack = s.videoTrack ∧
          (StateTS.deleteClip s cid).audioTracks = s.audioTracks ∧
          (StateTS.deleteClip s cid).selectedClipId = s.selectedClipId ∧
          (StateTS.deleteClip s cid).playbackTime = s.playbackTime ∧
          (StateTS.deleteClip s cid).zoom = s.zoom) ∧
      (∀ (s : StateTS.StateService) (newId : String),
        (∀ cid, s.selectedClipId = some cid → StateTS.findClip s cid = none) →
        StateTS.splitClip s newId = s) ∧
      ∀ (s : StateTS.StateService) (newId cid : String) (clip : StateTS.Clip),
        s.selectedClipId = some cid → StateTS.findClip s cid = some clip →
        ¬(s.playbackTime - clip.startTime > 1 / 20 ∧
            s.playbackTime - clip.startTime < clip.duration - 1 / 20) →
        StateTS.splitClip s newId = s := by
  refine ⟨?_, ?_, ?_, ?_⟩
  · intro s cid u hv ha
    have hany : s.videoTrack.any (fun c => c.id = cid) = false := by
      simp only [List.any_eq_false, decide_eq_true_eq]
      exact hv
    have hlanes : s.audioTracks.map
        (StateTS.patchFirst (fun c => c.id = cid) (fun c => StateTS.applyPatch c u)) =
        s.audioTracks := by
      have := List.map_congr_left (l := s.audioTracks)
        (f := StateTS.patchFirst (fun c => c.id = cid) (fun c => StateTS.applyPatch c u))
        (g := id)
        (fun lane hlane => StateTS.patchFirst_eq_self _ _ lane
          (fun c hc => by simp [ha lane hlane c hc]))
      simpa using this
    simp [StateTS.updateClip, hany, hlanes]
  · intro s cid hv ha hsel
    have hself : (StateTS.saveState s).selectedClipId ≠ some cid := by
      rw [StateTS.saveState_selectedClipId]; exact hsel
    refine ⟨?_, ?_, ?_, ?_, ?_⟩
    · simp only [StateTS.deleteClip]
      rw [StateTS.saveState_videoTrack, List.filter_eq_self]
      intro c hc
      simp [hv c hc]
    · simp only [StateTS.deleteClip]
      rw [StateTS.saveState_audioTracks]
      have := List.map_congr_left (l := s.audioTracks)
        (f := fun t => t.filter (fun c => c.id ≠ cid)) (g := id)
        (fun lane hlane => by
          simp only [id]
          rw [List.filter_eq_self]
          intro c hc
          simp [ha lane hlane c hc])
      simpa using this
    · simp only [StateTS.deleteClip]
      rw [if_neg hself, StateTS.saveState_selectedClipId]
    · simp only [StateTS.deleteClip]
      exact StateTS.saveState_playbackTime s
    · simp only [StateTS.deleteClip]
      exact StateTS.saveState_zoom s
  · intro s newId h
    cases hsel : s.selectedClipId with
    | none => simp [StateTS.splitClip, hsel]
    | some cid => simp [StateTS.splitClip, hsel, h cid hsel]
  · intro s newId cid clip hsel hfind hrange
    simp only [StateTS.splitClip, hsel, hfind]
    rw [if_neg hrange]

/-- Witness for C8: on a concrete one-clip state, update/delete/split with the
unknown id "zzz" and a split at the clip's own start time all leave the state
unchanged. -/
theorem unknown_id_and_out_of_range_noop_witness :
    (StateTS.updateClip
        { StateTS.initState with
          videoTrack := [⟨"a", "m", 0, 4, 0, MediaType.video, false, 1⟩] }
        "zzz" { duration := some 1 } =
      { StateTS.initState with
        videoTrack := [⟨"a", "m", 0, 4, 0, MediaType.video, false, 1⟩] }) ∧
      ((StateTS.deleteClip
          { StateTS.initState with
            videoTrack := [⟨"a", "m", 0, 4, 0, MediaType.video, false, 1⟩] }
          "zzz").videoTrack = [⟨"a", "m", 0, 4, 0, MediaType.video, false, 1⟩]) ∧
      (StateTS.splitClip
          { StateTS.initState with selectedClipId := some "zzz" } "n" =
        { StateTS.initState with selectedClipId := some "zzz" }) ∧
      (StateTS.splitClip
          { StateTS.initState with
            videoTrack := [⟨"a", "m", 0, 4, 0, MediaType.video, false, 1⟩]
            selectedClipId := some "a" } "n" =
        { StateTS.initState with
          videoTrack := [⟨"a", "m", 0, 4, 0, MediaType.video, false, 1⟩]
          selectedClipId := some "a" }) :=
  ⟨unknown_id_and_out_of_range_noop.1 _ _ _ (by decide) (by decide),
    (unknown_id_and_out_of_range_noop.2.1 _ _ (by decide) (by decide) (by decide)).1,
    unknown_id_and_out_of_range_noop.2.2.1 _ _ (by intro cid h; cases h; decide),
    unknown_id_and_out_of_range_noop.2.2.2 _ "n" "a"
      ⟨"a", "m", 0, 4, 0, MediaType.video, false, 1⟩ rfl (by decide) (by norm_num [StateTS.initState])⟩
